import Mathlib

/-!
Verification of the checkoutbot core (`checkoutbot/store.py`).

The embedding models Python dicts (insertion-ordered, first-occurrence
lookup, in-place update, append-on-new-key) as association lists
`List (Nat × α)`, Python object aliasing of `Register` values through the
index of the register in the pool (`Store.registers`), the per-register
mutex as an acquire/release counter (`Register.lock`, incremented by
`lockRegister`, decremented by `unlockRegister`), and raised exceptions as
`Except` results that also carry the post-state of the raising path.
-/

set_option autoImplicit false

/-- First-occurrence lookup, as Python `m[k]` / `k in m` reads a dict. -/
def dictLookup {α : Type} : List (Nat × α) → Nat → Option α
  | [], _ => none
  | (k, v) :: rest, key => if k = key then some v else dictLookup rest key

/-- Python `key in m`. -/
def dictMem {α : Type} (m : List (Nat × α)) (key : Nat) : Bool :=
  (dictLookup m key).isSome

/-- Python `m[key] = v`: replace in place if the key is present (keeping its
position), otherwise append at the end (insertion order). -/
def dictSet {α : Type} : List (Nat × α) → Nat → α → List (Nat × α)
  | [], key, v => [(key, v)]
  | (k, w) :: rest, key, v =>
      if k = key then (k, v) :: rest else (k, w) :: dictSet rest key v

/-- Python `del m[key]`: remove the (first) entry with the given key. -/
def dictErase {α : Type} : List (Nat × α) → Nat → List (Nat × α)
  | [], _ => []
  | (k, w) :: rest, key => if k = key then rest else (k, w) :: dictErase rest key

/-- The keys of a dict, in insertion order. -/
def dictKeys {α : Type} (m : List (Nat × α)) : List Nat :=
  m.map Prod.fst

/-- Replace the element at one position of a list, leaving the rest alone
(used to write back the register object that a Python method mutated). -/
def modifyIdx {α : Type} : List α → Nat → (α → α) → List α
  | [], _, _ => []
  | x :: xs, 0, f => f x :: xs
  | x :: xs, Nat.succ n, f => x :: modifyIdx xs n f

/-- `Cart` from `store.py`: one shopper's pending items. -/
structure Cart where
  customer_id : Nat
  items : List Nat
deriving Repr, DecidableEq

/-- `Cart.size`: number of items in the cart. -/
def Cart.size (c : Cart) : Nat := c.items.length

/-- `Cart.addItem`: append an item to the cart. -/
def Cart.addItem (c : Cart) (item_id : Nat) : Cart :=
  { c with items := c.items ++ [item_id] }

/-- `Register` from `store.py`.  `lock` counts unmatched `acquire()` calls on
the register's mutex (0 = not held); a sequentially correct operation leaves
it back at its entry value. -/
structure Register where
  customer_cart_map : List (Nat × Cart)
  lock : Nat
  register_id : Nat
deriving Repr, DecidableEq

/-- `Register.__init__`. -/
def Register.init (register_id : Nat) : Register :=
  { customer_cart_map := [], lock := 0, register_id := register_id }

/-- `Register.lockRegister`: `self.lock.acquire()`. -/
def Register.lockRegister (r : Register) : Register :=
  { r with lock := r.lock + 1 }

/-- `Register.unlockRegister`: `self.lock.release()`. -/
def Register.unlockRegister (r : Register) : Register :=
  { r with lock := r.lock - 1 }

deriving instance DecidableEq for Except

/-- The exceptions raised in `store.py`. -/
inductive StoreError where
  /-- "A cart to checkout does not exist for the given customer." -/
  | cartNotFound
  /-- "Attempted to checkout customer without a cart" -/
  | checkoutWithoutCart
  /-- "Invalid register state" -/
  | invalidRegisterState
deriving Repr, DecidableEq

/-- `Register.addItemToCart`: lock; append to the existing cart or create a
fresh one-item cart; unlock.  Never raises. -/
def Register.addItemToCart (r : Register) (customer_id item_id : Nat) : Register :=
  let r1 := r.lockRegister
  let r2 :=
    match dictLookup r1.customer_cart_map customer_id with
    | some cart =>
        { r1 with customer_cart_map :=
            dictSet r1.customer_cart_map customer_id (cart.addItem item_id) }
    | none =>
        let cart := (Cart.mk customer_id []).addItem item_id
        { r1 with customer_cart_map :=
            dictSet r1.customer_cart_map customer_id cart }
  r2.unlockRegister

/-- `Register.checkoutCart`: lock; delete the customer's cart, or raise if it
is absent.  The source raises before `unlockRegister`, so on the error path
the returned register still holds the lock. -/
def Register.checkoutCart (r : Register) (customer_id : Nat) :
    Except StoreError Unit × Register :=
  let r1 := r.lockRegister
  if dictMem r1.customer_cart_map customer_id then
    let r2 := { r1 with customer_cart_map := dictErase r1.customer_cart_map customer_id }
    (Except.ok (), r2.unlockRegister)
  else
    (Except.error StoreError.cartNotFound, r1)

/-- `Register.getTotalItems`: sum of `size()` over all pending carts. -/
def Register.getTotalItems (r : Register) : Nat :=
  r.customer_cart_map.foldl (fun total_items p => total_items + p.2.size) 0

/-- `Register.getRegisterState`: one entry per pending item, valued with the
owning cart's `customer_id`, carts in dict (insertion) order. -/
def Register.getRegisterState (r : Register) : List Nat :=
  r.customer_cart_map.foldl
    (fun register_state p => register_state ++ List.replicate p.2.size p.2.customer_id) []

/-- `Store` from `store.py`.  `register_map` routes a customer to the pool
index of the register object holding their cart (Python stores the object
reference itself). -/
structure Store where
  registers : List Register
  register_map : List (Nat × Nat)
deriving Repr, DecidableEq

/-- `Store.__init__(num_registers)`: registers `0 .. num_registers - 1`,
empty routing table. -/
def Store.init (num_registers : Nat) : Store :=
  { registers := (List.range num_registers).map Register.init, register_map := [] }

/-- Dereference a pool index (the embedding of following a stored `Register`
reference); out-of-range indices never occur in program states. -/
def Store.getRegister (s : Store) (i : Nat) : Register :=
  s.registers.getD i (Register.init 0)

/-- `Store.lockRegisters`: acquire every register's lock, in pool order. -/
def Store.lockRegisters (s : Store) : Store :=
  { s with registers := s.registers.map Register.lockRegister }

/-- `Store.unlockRegisters`: release every register's lock, in pool order. -/
def Store.unlockRegisters (s : Store) : Store :=
  { s with registers := s.registers.map Register.unlockRegister }

/-- CPython's `sys.maxsize` on a 64-bit platform. -/
def sysMaxsize : Nat := 2 ^ 63 - 1

/-- Outcome of the scan loop inside `getLeastUtilizedRegister`: either the
early `return register` on a zero-item register, or the loop ran to the end
with the final candidate. -/
inductive ScanOutcome where
  | earlyExit (idx : Nat)
  | done (cand : Option Nat)
deriving Repr, DecidableEq

/-- The `for register in self.registers` loop of `getLeastUtilizedRegister`,
carrying the position of the next register, `lowest_items` and the current
candidate (`lowest_utilized_register`, as a pool index). -/
def scanRegisters : List Register → Nat → Nat → Option Nat → ScanOutcome
  | [], _, _, cand => ScanOutcome.done cand
  | register :: rest, idx, lowest_items, cand =>
      let total_items := register.getTotalItems
      if total_items = 0 then ScanOutcome.earlyExit idx
      else if lowest_items > total_items then
        scanRegisters rest (idx + 1) total_items (some idx)
      else
        scanRegisters rest (idx + 1) lowest_items cand

/-- `Store.getLeastUtilizedRegister`: lock all registers, scan with
`lowest_items = sys.maxsize`; a zero-item register exits early (unlocking
first); if the loop ends with no candidate the source raises
"Invalid register state" while still holding every register lock. -/
def Store.getLeastUtilizedRegister (s : Store) : Except StoreError Nat × Store :=
  let s1 := s.lockRegisters
  match scanRegisters s1.registers 0 sysMaxsize none with
  | ScanOutcome.earlyExit i => (Except.ok i, s1.unlockRegisters)
  | ScanOutcome.done (some i) => (Except.ok i, s1.unlockRegisters)
  | ScanOutcome.done none => (Except.error StoreError.invalidRegisterState, s1)

/-- `Store.assignItem`: sticky routing when the customer is already mapped,
otherwise pick a register with `getLeastUtilizedRegister`, add the item there
and record the mapping. -/
def Store.assignItem (s : Store) (customer_id item_id : Nat) :
    Except StoreError Unit × Store :=
  match dictLookup s.register_map customer_id with
  | some i =>
      (Except.ok (),
        { s with registers :=
            modifyIdx s.registers i (fun register => register.addItemToCart customer_id item_id) })
  | none =>
      match s.getLeastUtilizedRegister with
      | (Except.ok i, s1) =>
          let regs2 := modifyIdx s1.registers i (fun register => register.addItemToCart customer_id item_id)
          let s2 := { s1 with registers := regs2 }
          (Except.ok (), { s2 with register_map := dictSet s2.register_map customer_id i })
      | (Except.error e, s1) => (Except.error e, s1)

/-- `Store.checkoutCustomer`: look the customer up in `register_map`, check
out their cart at that register, then delete the routing entry; the routing
entry survives if the register-level removal raised, and an unmapped
customer raises "Attempted to checkout customer without a cart". -/
def Store.checkoutCustomer (s : Store) (customer_id : Nat) :
    Except StoreError Unit × Store :=
  match dictLookup s.register_map customer_id with
  | some i =>
      match (s.getRegister i).checkoutCart customer_id with
      | (Except.ok _, r2) =>
          (Except.ok (),
            { s with
                registers := modifyIdx s.registers i (fun _ => r2)
                register_map := dictErase s.register_map customer_id })
      | (Except.error e, r2) =>
          (Except.error e, { s with registers := modifyIdx s.registers i (fun _ => r2) })
  | none => (Except.error StoreError.checkoutWithoutCart, s)

/-- `Store.getAllRegisterState`: lock all registers, build the
`register_id → register state` dict in pool order, unlock, return. -/
def Store.getAllRegisterState (s : Store) : List (Nat × List Nat) × Store :=
  let s1 := s.lockRegisters
  let state := s1.registers.foldl
      (fun state register => dictSet state register.register_id register.getRegisterState) []
  (state, s1.unlockRegisters)

/-- The two mutating store operations, for traces. -/
inductive Op where
  | assign (customer_id item_id : Nat)
  | checkout (customer_id : Nat)
deriving Repr, DecidableEq

/-- Post-state of one operation (failed operations keep the state the
raising path left behind). -/
def Store.applyOp (s : Store) : Op → Store
  | Op.assign c it => (s.assignItem c it).2
  | Op.checkout c => (s.checkoutCustomer c).2

/-- Post-state of a sequence of operations. -/
def Store.applyOps (s : Store) (ops : List Op) : Store :=
  ops.foldl Store.applyOp s

/-- Store states produced from a fresh (or freshly reset) store by
successful operations only. -/
inductive Reachable : Store → Prop where
  | init (n : Nat) : Reachable (Store.init n)
  | assign {s : Store} (c it : Nat) : Reachable s →
      (s.assignItem c it).1 = Except.ok () → Reachable (s.assignItem c it).2
  | checkout {s : Store} (c : Nat) : Reachable s →
      (s.checkoutCustomer c).1 = Except.ok () → Reachable (s.checkoutCustomer c).2

/-- The structural store invariant: routing keys are unique, every routing
entry points into the pool at a register that holds that customer's cart,
per-register cart keys are unique, register ids equal pool positions, every
cart is keyed by its own `customer_id`, and every cart's owner is routed to
the register holding it. -/
def Store.Inv (s : Store) : Prop :=
  (dictKeys s.register_map).Nodup ∧
  (∀ p ∈ s.register_map,
      p.2 < s.registers.length ∧ dictMem (s.getRegister p.2).customer_cart_map p.1 = true) ∧
  (∀ j < s.registers.length,
      (dictKeys (s.getRegister j).customer_cart_map).Nodup ∧
      (s.getRegister j).register_id = j ∧
      (∀ q ∈ (s.getRegister j).customer_cart_map,
          q.2.customer_id = q.1 ∧ dictLookup s.register_map q.1 = some j))

instance (s : Store) : Decidable s.Inv := by
  unfold Store.Inv
  infer_instance

example : ((Store.init 2).assignItem 0 5).1 = Except.ok () := by decide

example :
    dictLookup (((Store.init 2).assignItem 0 5).2).register_map 0 = some 0 := by decide

example : (((Store.init 2).assignItem 0 5).2.assignItem 1 6).2.register_map
    = [(0, 0), (1, 1)] := by decide

example : (((Store.init 2).assignItem 0 5).2).Inv := by decide

/-! ### Dictionary lemmas -/

theorem dictKeys_cons {α : Type} (p : Nat × α) (rest : List (Nat × α)) :
    dictKeys (p :: rest) = p.1 :: dictKeys rest := rfl

theorem dictLookup_eq_none_iff {α : Type} (m : List (Nat × α)) (k : Nat) :
    dictLookup m k = none ↔ k ∉ dictKeys m := by
  induction m with
  | nil => simp [dictLookup, dictKeys]
  | cons p rest ih =>
    obtain ⟨k0, v0⟩ := p
    rw [dictKeys_cons]
    simp only [List.mem_cons]
    by_cases h : k0 = k
    · subst h
      simp [dictLookup]
    · rw [show dictLookup ((k0, v0) :: rest) k = dictLookup rest k by simp [dictLookup, h], ih]
      constructor
      · intro hk hor
        rcases hor with he | hm
        · exact h he.symm
        · exact hk hm
      · intro hall hm
        exact hall (Or.inr hm)

theorem dictMem_iff {α : Type} (m : List (Nat × α)) (k : Nat) :
    dictMem m k = true ↔ k ∈ dictKeys m := by
  unfold dictMem
  rcases h : dictLookup m k with _ | v
  · simpa using (dictLookup_eq_none_iff m k).mp h
  · simp only [Option.isSome_some, true_iff]
    by_contra hk
    rw [(dictLookup_eq_none_iff m k).mpr hk] at h
    cases h

theorem dictMem_eq_false_iff {α : Type} (m : List (Nat × α)) (k : Nat) :
    dictMem m k = false ↔ k ∉ dictKeys m := by
  constructor
  · intro h hk
    have := (dictMem_iff m k).mpr hk
    rw [h] at this; cases this
  · intro hk
    cases hm : dictMem m k
    · rfl
    · exact absurd ((dictMem_iff m k).mp hm) hk

theorem mem_of_dictLookup_eq_some {α : Type} {m : List (Nat × α)} {k : Nat} {v : α}
    (h : dictLookup m k = some v) : (k, v) ∈ m := by
  induction m with
  | nil => cases h
  | cons p rest ih =>
    obtain ⟨k0, v0⟩ := p
    by_cases hk : k0 = k
    · subst hk
      simp [dictLookup] at h
      subst h; exact List.mem_cons_self _ _
    · simp [dictLookup, hk] at h
      exact List.mem_cons_of_mem _ (ih h)

theorem dictLookup_eq_some_of_mem {α : Type} {m : List (Nat × α)} {k : Nat} {v : α}
    (hn : (dictKeys m).Nodup) (h : (k, v) ∈ m) : dictLookup m k = some v := by
  induction m with
  | nil => cases h
  | cons p rest ih =>
    obtain ⟨k0, v0⟩ := p
    simp only [dictKeys, List.map_cons, List.nodup_cons] at hn
    rcases List.mem_cons.mp h with he | hm
    · cases he
      simp [dictLookup]
    · have hk : k0 ≠ k := by
        intro he; subst he
        exact hn.1 (List.mem_map.mpr ⟨(k0, v), hm, rfl⟩)
      simp [dictLookup, hk]
      exact ih hn.2 hm

theorem dictLookup_dictSet_self {α : Type} (m : List (Nat × α)) (k : Nat) (v : α) :
    dictLookup (dictSet m k v) k = some v := by
  induction m with
  | nil => simp [dictSet, dictLookup]
  | cons p rest ih =>
    obtain ⟨k0, v0⟩ := p
    by_cases h : k0 = k <;> simp [dictSet, dictLookup, h, ih]

theorem dictLookup_dictSet_ne {α : Type} (m : List (Nat × α)) {j k : Nat} (v : α)
    (h : j ≠ k) : dictLookup (dictSet m k v) j = dictLookup m j := by
  induction m with
  | nil =>
    have hkj : k ≠ j := fun he => h he.symm
    simp [dictSet, dictLookup, hkj]
  | cons p rest ih =>
    obtain ⟨k0, v0⟩ := p
    by_cases hk : k0 = k
    · subst hk
      have hkj : k0 ≠ j := fun he => h he.symm
      simp [dictSet, dictLookup, hkj]
    · by_cases hj : k0 = j <;> simp [dictSet, dictLookup, hk, hj, ih, h]

theorem dictSet_eq_append {α : Type} {m : List (Nat × α)} {k : Nat} (v : α)
    (h : dictLookup m k = none) : dictSet m k v = m ++ [(k, v)] := by
  induction m with
  | nil => simp [dictSet]
  | cons p rest ih =>
    obtain ⟨k0, v0⟩ := p
    by_cases hk : k0 = k
    · subst hk; simp [dictLookup] at h
    · simp [dictLookup, hk] at h
      simp [dictSet, hk, ih h]

theorem dictKeys_dictSet_of_mem {α : Type} {m : List (Nat × α)} {k : Nat} (v : α)
    (h : k ∈ dictKeys m) : dictKeys (dictSet m k v) = dictKeys m := by
  induction m with
  | nil => simp [dictKeys] at h
  | cons p rest ih =>
    obtain ⟨k0, v0⟩ := p
    by_cases hk : k0 = k
    · subst hk; simp [dictSet, dictKeys]
    · rw [dictKeys_cons] at h
      rcases List.mem_cons.mp h with he | hm
      · exact absurd he.symm hk
      · have hstep : dictSet ((k0, v0) :: rest) k v = (k0, v0) :: dictSet rest k v := by
          simp [dictSet, hk]
        rw [hstep, dictKeys_cons, dictKeys_cons, ih hm]

theorem dictKeys_dictSet_nodup {α : Type} {m : List (Nat × α)} (k : Nat) (v : α)
    (hn : (dictKeys m).Nodup) : (dictKeys (dictSet m k v)).Nodup := by
  by_cases h : k ∈ dictKeys m
  · rw [dictKeys_dictSet_of_mem v h]; exact hn
  · rw [dictSet_eq_append v ((dictLookup_eq_none_iff m k).mpr h)]
    unfold dictKeys
    rw [List.map_append]
    simp [List.nodup_append, dictKeys] at *
    exact ⟨hn, fun hm => h hm⟩

theorem dictErase_sublist {α : Type} (m : List (Nat × α)) (k : Nat) :
    List.Sublist (dictErase m k) m := by
  induction m with
  | nil => simp [dictErase]
  | cons p rest ih =>
    obtain ⟨k0, v0⟩ := p
    by_cases h : k0 = k
    · rw [show dictErase ((k0, v0) :: rest) k = rest by simp [dictErase, h]]
      exact List.sublist_cons_self _ _
    · rw [show dictErase ((k0, v0) :: rest) k = (k0, v0) :: dictErase rest k by
        simp [dictErase, h]]
      exact List.Sublist.cons₂ _ ih

theorem dictKeys_dictErase_nodup {α : Type} {m : List (Nat × α)} (k : Nat)
    (hn : (dictKeys m).Nodup) : (dictKeys (dictErase m k)).Nodup := by
  exact List.Nodup.sublist (List.Sublist.map Prod.fst (dictErase_sublist m k)) hn

theorem dictLookup_dictErase_self {α : Type} {m : List (Nat × α)} (k : Nat)
    (hn : (dictKeys m).Nodup) : dictLookup (dictErase m k) k = none := by
  induction m with
  | nil => simp [dictErase, dictLookup]
  | cons p rest ih =>
    obtain ⟨k0, v0⟩ := p
    simp only [dictKeys, List.map_cons, List.nodup_cons] at hn
    by_cases h : k0 = k
    · subst h
      simp [dictErase]
      rw [dictLookup_eq_none_iff]
      intro hm
      exact hn.1 hm
    · simp [dictErase, dictLookup, h]
      exact ih hn.2

theorem dictLookup_dictErase_ne {α : Type} (m : List (Nat × α)) {j k : Nat}
    (h : j ≠ k) : dictLookup (dictErase m k) j = dictLookup m j := by
  induction m with
  | nil => simp [dictErase]
  | cons p rest ih =>
    obtain ⟨k0, v0⟩ := p
    by_cases hk : k0 = k
    · subst hk
      have hkj : k0 ≠ j := fun he => h (he.symm)
      simp [dictErase, dictLookup, hkj]
    · by_cases hj : k0 = j <;> simp [dictErase, dictLookup, hk, hj, ih, h]

theorem mem_dictSet {α : Type} {m : List (Nat × α)} {k : Nat} {v : α} {p : Nat × α}
    (h : p ∈ dictSet m k v) : p = (k, v) ∨ p ∈ m := by
  induction m with
  | nil => simp [dictSet] at h; exact Or.inl h
  | cons q rest ih =>
    obtain ⟨k0, v0⟩ := q
    by_cases hk : k0 = k
    · subst hk
      simp [dictSet] at h
      rcases h with he | hm
      · exact Or.inl (by rw [he])
      · exact Or.inr (List.mem_cons_of_mem _ hm)
    · simp [dictSet, hk] at h
      rcases h with he | hm
      · exact Or.inr (by rw [he]; exact List.mem_cons_self _ _)
      · rcases ih hm with h1 | h2
        · exact Or.inl h1
        · exact Or.inr (List.mem_cons_of_mem _ h2)

theorem mem_dictSet_of_ne {α : Type} {m : List (Nat × α)} {k : Nat} {v : α} {p : Nat × α}
    (hp : p ∈ m) (hne : p.1 ≠ k) : p ∈ dictSet m k v := by
  induction m with
  | nil => cases hp
  | cons q rest ih =>
    obtain ⟨k0, v0⟩ := q
    rcases List.mem_cons.mp hp with he | hm
    · subst he
      have : k0 ≠ k := hne
      simp [dictSet, this]
    · by_cases hk : k0 = k <;> simp [dictSet, hk]
      · exact Or.inr hm
      · exact Or.inr (ih hm)

theorem mem_dictErase {α : Type} {m : List (Nat × α)} {k : Nat} {p : Nat × α}
    (h : p ∈ dictErase m k) : p ∈ m :=
  (dictErase_sublist m k).mem h

theorem mem_dictErase_of_ne {α : Type} {m : List (Nat × α)} {k : Nat} {p : Nat × α}
    (hp : p ∈ m) (hne : p.1 ≠ k) : p ∈ dictErase m k := by
  induction m with
  | nil => cases hp
  | cons q rest ih =>
    obtain ⟨k0, v0⟩ := q
    rcases List.mem_cons.mp hp with he | hm
    · subst he
      have : k0 ≠ k := hne
      simp [dictErase, this]
    · by_cases hk : k0 = k <;> simp [dictErase, hk]
      · exact hm
      · exact Or.inr (ih hm)

/-! ### modifyIdx and getD lemmas -/

theorem length_modifyIdx {α : Type} (l : List α) (i : Nat) (f : α → α) :
    (modifyIdx l i f).length = l.length := by
  induction l generalizing i with
  | nil => rfl
  | cons x xs ih =>
    cases i with
    | zero => simp [modifyIdx]
    | succ n => simp [modifyIdx, ih]

theorem getD_modifyIdx_self {α : Type} {l : List α} {i : Nat} (f : α → α) (d : α)
    (h : i < l.length) : (modifyIdx l i f).getD i d = f (l.getD i d) := by
  induction l generalizing i with
  | nil => cases h
  | cons x xs ih =>
    cases i with
    | zero => simp [modifyIdx]
    | succ n =>
      simp only [modifyIdx, List.getD_cons_succ]
      exact ih (Nat.lt_of_succ_lt_succ h)

theorem getD_modifyIdx_ne {α : Type} {l : List α} {i j : Nat} (f : α → α) (d : α)
    (h : j ≠ i) : (modifyIdx l i f).getD j d = l.getD j d := by
  induction l generalizing i j with
  | nil => rfl
  | cons x xs ih =>
    cases i with
    | zero =>
      cases j with
      | zero => exact absurd rfl h
      | succ m => simp [modifyIdx]
    | succ n =>
      cases j with
      | zero => simp [modifyIdx]
      | succ m =>
        simp only [modifyIdx, List.getD_cons_succ]
        exact ih (fun he => h (by rw [he]))

theorem modifyIdx_of_ge {α : Type} {l : List α} {i : Nat} (f : α → α)
    (h : l.length ≤ i) : modifyIdx l i f = l := by
  induction l generalizing i with
  | nil => rfl
  | cons x xs ih =>
    cases i with
    | zero => exact absurd h (Nat.not_succ_le_zero _)
    | succ n =>
      simp only [modifyIdx, List.cons.injEq, true_and]
      exact ih (Nat.le_of_succ_le_succ h)

theorem getD_map {α β : Type} (f : α → β) {l : List α} {i : Nat} (d : β) (d0 : α)
    (h : i < l.length) : (l.map f).getD i d = f (l.getD i d0) := by
  induction l generalizing i with
  | nil => cases h
  | cons x xs ih =>
    cases i with
    | zero => simp
    | succ n =>
      simp only [List.map_cons, List.getD_cons_succ]
      exact ih (Nat.lt_of_succ_lt_succ h)

theorem getD_of_ge {α : Type} {l : List α} {i : Nat} (d : α)
    (h : l.length ≤ i) : l.getD i d = d := by
  induction l generalizing i with
  | nil => cases i <;> rfl
  | cons x xs ih =>
    cases i with
    | zero => exact absurd h (Nat.not_succ_le_zero _)
    | succ n =>
      simp only [List.getD_cons_succ]
      exact ih (Nat.le_of_succ_le_succ h)

theorem sum_map_modifyIdx {α : Type} (g : α → Nat) {l : List α} {i : Nat} (f : α → α) (d : α)
    (h : i < l.length) :
    ((modifyIdx l i f).map g).sum + g (l.getD i d)
      = (l.map g).sum + g (f (l.getD i d)) := by
  induction l generalizing i with
  | nil => cases h
  | cons x xs ih =>
    cases i with
    | zero =>
      simp only [modifyIdx, List.map_cons, List.sum_cons, List.getD_cons_zero]
      omega
    | succ n =>
      simp only [modifyIdx, List.map_cons, List.sum_cons, List.getD_cons_succ]
      have := ih (Nat.lt_of_succ_lt_succ h)
      omega

/-! ### Register-level lemmas -/

theorem foldl_add_size (l : List (Nat × Cart)) (n : Nat) :
    l.foldl (fun total_items p => total_items + p.2.size) n
      = n + (l.map (fun p => p.2.size)).sum := by
  induction l generalizing n with
  | nil => simp
  | cons p rest ih =>
    simp only [List.foldl_cons, List.map_cons, List.sum_cons, ih]
    omega

theorem getTotalItems_eq (r : Register) :
    r.getTotalItems = (r.customer_cart_map.map (fun p => p.2.size)).sum := by
  unfold Register.getTotalItems
  rw [foldl_add_size]
  omega

theorem foldl_append_state (l : List (Nat × Cart)) (acc : List Nat) :
    l.foldl (fun register_state p => register_state ++ List.replicate p.2.size p.2.customer_id) acc
      = acc ++ (l.map (fun p => List.replicate p.2.size p.2.customer_id)).flatten := by
  induction l generalizing acc with
  | nil => simp
  | cons p rest ih => simp [List.foldl_cons, ih]

theorem getRegisterState_eq (r : Register) :
    r.getRegisterState
      = (r.customer_cart_map.map (fun p => List.replicate p.2.size p.2.customer_id)).flatten := by
  unfold Register.getRegisterState
  rw [foldl_append_state]
  simp

theorem size_addItem (cart : Cart) (it : Nat) : (cart.addItem it).size = cart.size + 1 := by
  simp [Cart.addItem, Cart.size]

theorem lockRegister_unlockRegister (r : Register) :
    (r.lockRegister).unlockRegister = r := by
  simp [Register.lockRegister, Register.unlockRegister]

theorem addItemToCart_eq (r : Register) (c it : Nat) :
    r.addItemToCart c it =
      { r with customer_cart_map :=
          match dictLookup r.customer_cart_map c with
          | some cart => dictSet r.customer_cart_map c (cart.addItem it)
          | none => dictSet r.customer_cart_map c (Cart.mk c [it]) } := by
  unfold Register.addItemToCart
  cases h : dictLookup r.customer_cart_map c <;>
    simp [Register.lockRegister, Register.unlockRegister, Cart.addItem, h]

theorem addItemToCart_eq_some {r : Register} {c : Nat} {cart : Cart} (it : Nat)
    (h : dictLookup r.customer_cart_map c = some cart) :
    r.addItemToCart c it
      = { r with customer_cart_map := dictSet r.customer_cart_map c (cart.addItem it) } := by
  rw [addItemToCart_eq, h]

theorem addItemToCart_eq_none {r : Register} {c : Nat} (it : Nat)
    (h : dictLookup r.customer_cart_map c = none) :
    r.addItemToCart c it
      = { r with customer_cart_map := r.customer_cart_map ++ [(c, Cart.mk c [it])] } := by
  rw [addItemToCart_eq, h]
  rw [dictSet_eq_append _ h]

theorem checkoutCart_eq_mem {r : Register} {c : Nat}
    (h : dictMem r.customer_cart_map c = true) :
    r.checkoutCart c
      = (Except.ok (), { r with customer_cart_map := dictErase r.customer_cart_map c }) := by
  unfold Register.checkoutCart
  simp [Register.lockRegister, Register.unlockRegister, h]

theorem checkoutCart_eq_not_mem {r : Register} {c : Nat}
    (h : dictMem r.customer_cart_map c = false) :
    r.checkoutCart c = (Except.error StoreError.cartNotFound, r.lockRegister) := by
  unfold Register.checkoutCart
  simp [Register.lockRegister, h]

theorem sum_sizes_dictSet_some {m : List (Nat × Cart)} {c : Nat} {cart : Cart} (cart2 : Cart)
    (h : dictLookup m c = some cart) :
    ((dictSet m c cart2).map (fun p => p.2.size)).sum + cart.size
      = (m.map (fun p => p.2.size)).sum + cart2.size := by
  induction m with
  | nil => cases h
  | cons p rest ih =>
    obtain ⟨k0, v0⟩ := p
    by_cases hk : k0 = c
    · subst hk
      simp [dictLookup] at h
      subst h
      simp [dictSet, List.map_cons, List.sum_cons]
      omega
    · simp [dictLookup, hk] at h
      simp only [dictSet, if_neg hk, List.map_cons, List.sum_cons]
      have := ih h
      omega

theorem sum_sizes_dictErase {m : List (Nat × Cart)} {c : Nat} {cart : Cart}
    (h : dictLookup m c = some cart) :
    ((dictErase m c).map (fun p => p.2.size)).sum + cart.size
      = (m.map (fun p => p.2.size)).sum := by
  induction m with
  | nil => cases h
  | cons p rest ih =>
    obtain ⟨k0, v0⟩ := p
    by_cases hk : k0 = c
    · subst hk
      simp [dictLookup] at h
      subst h
      simp [dictErase, List.map_cons, List.sum_cons]
      omega
    · simp [dictLookup, hk] at h
      simp only [dictErase, if_neg hk, List.map_cons, List.sum_cons]
      have := ih h
      omega

theorem getTotalItems_addItemToCart (r : Register) (c it : Nat) :
    (r.addItemToCart c it).getTotalItems = r.getTotalItems + 1 := by
  cases h : dictLookup r.customer_cart_map c with
  | none =>
    rw [addItemToCart_eq_none it h]
    rw [getTotalItems_eq, getTotalItems_eq]
    simp [Cart.size]
  | some cart =>
    rw [addItemToCart_eq_some it h]
    rw [getTotalItems_eq, getTotalItems_eq]
    have h2 := sum_sizes_dictSet_some (cart.addItem it) h
    rw [size_addItem] at h2
    simp only
    omega

/-! ### Scan lemmas -/

/-- Total item count of the register at one pool position. -/
def totalAt (regs : List Register) (m : Nat) : Nat :=
  (regs.getD m (Register.init 0)).getTotalItems

theorem totalAt_zero (r : Register) (rest : List Register) :
    totalAt (r :: rest) 0 = r.getTotalItems := rfl

theorem totalAt_succ (r : Register) (rest : List Register) (m : Nat) :
    totalAt (r :: rest) (m + 1) = totalAt rest m := rfl

theorem scanRegisters_no_cand_some (regs : List Register) :
    ∀ (idx lowest i : Nat),
      scanRegisters regs idx lowest (some i) ≠ ScanOutcome.done none := by
  induction regs with
  | nil => intro idx lowest i; simp [scanRegisters]
  | cons r rest ih =>
    intro idx lowest i
    simp only [scanRegisters]
    by_cases h0 : r.getTotalItems = 0
    · simp [h0]
    · by_cases hl : lowest > r.getTotalItems
      · simp only [if_neg h0, if_pos hl]
        exact ih (idx + 1) r.getTotalItems idx
      · simp only [if_neg h0, if_neg hl]
        exact ih (idx + 1) lowest i

theorem scanRegisters_exists_lt (regs : List Register) :
    ∀ (idx lowest : Nat) (cand : Option Nat),
      (∃ r ∈ regs, r.getTotalItems < lowest) →
      scanRegisters regs idx lowest cand ≠ ScanOutcome.done none := by
  induction regs with
  | nil => intro idx lowest cand h; simp at h
  | cons r rest ih =>
    intro idx lowest cand h
    simp only [scanRegisters]
    by_cases h0 : r.getTotalItems = 0
    · simp [h0]
    · by_cases hl : lowest > r.getTotalItems
      · simp only [if_neg h0, if_pos hl]
        exact scanRegisters_no_cand_some rest (idx + 1) r.getTotalItems idx
      · simp only [if_neg h0, if_neg hl]
        apply ih
        rcases h with ⟨r2, hr2, hlt⟩
        rcases List.mem_cons.mp hr2 with he | hm
        · subst he; exact absurd hlt hl
        · exact ⟨r2, hm, hlt⟩

theorem scanRegisters_first_zero (regs : List Register) :
    ∀ (idx lowest : Nat) (cand : Option Nat) (i : Nat),
      i < regs.length →
      totalAt regs i = 0 →
      (∀ m, m < i → totalAt regs m ≠ 0) →
      scanRegisters regs idx lowest cand = ScanOutcome.earlyExit (idx + i) := by
  induction regs with
  | nil => intro idx lowest cand i hi; cases hi
  | cons r rest ih =>
    intro idx lowest cand i hi hz hnz
    cases i with
    | zero =>
      rw [totalAt_zero] at hz
      simp [scanRegisters, hz]
    | succ n =>
      have h0 : r.getTotalItems ≠ 0 := by
        have := hnz 0 (Nat.succ_pos n)
        rw [totalAt_zero] at this
        exact this
      have harith : idx + 1 + n = idx + (n + 1) := by omega
      simp only [scanRegisters, if_neg h0]
      by_cases hl : lowest > r.getTotalItems
      · rw [if_pos hl]
        rw [ih (idx + 1) r.getTotalItems (some idx) n (Nat.lt_of_succ_lt_succ hi)
            (by rw [totalAt_succ] at hz; exact hz)
            (fun m hm => by
              have := hnz (m + 1) (Nat.succ_lt_succ hm)
              rw [totalAt_succ] at this
              exact this)]
        rw [harith]
      · rw [if_neg hl]
        rw [ih (idx + 1) lowest cand n (Nat.lt_of_succ_lt_succ hi)
            (by rw [totalAt_succ] at hz; exact hz)
            (fun m hm => by
              have := hnz (m + 1) (Nat.succ_lt_succ hm)
              rw [totalAt_succ] at this
              exact this)]
        rw [harith]

theorem scanRegisters_stable (regs : List Register) :
    ∀ (idx lowest : Nat) (cand : Option Nat),
      (∀ m, m < regs.length → lowest ≤ totalAt regs m ∧ totalAt regs m ≠ 0) →
      scanRegisters regs idx lowest cand = ScanOutcome.done cand := by
  induction regs with
  | nil => intro idx lowest cand _; rfl
  | cons r rest ih =>
    intro idx lowest cand h
    have h0 := h 0 (Nat.succ_pos _)
    rw [totalAt_zero] at h0
    have hl : ¬lowest > r.getTotalItems := Nat.not_lt.mpr h0.1
    simp only [scanRegisters, if_neg h0.2, if_neg hl]
    exact ih (idx + 1) lowest cand (fun m hm => by
      have := h (m + 1) (Nat.succ_lt_succ hm)
      rw [totalAt_succ] at this
      exact this)

theorem scanRegisters_min (regs : List Register) :
    ∀ (i idx lowest : Nat) (cand : Option Nat),
      (∀ m, m < regs.length → totalAt regs m ≠ 0) →
      i < regs.length →
      totalAt regs i < lowest →
      (∀ m, m < i → totalAt regs i < totalAt regs m) →
      (∀ m, m < regs.length → totalAt regs i ≤ totalAt regs m) →
      scanRegisters regs idx lowest cand = ScanOutcome.done (some (idx + i)) := by
  induction regs with
  | nil => intro i idx lowest cand _ hi; cases hi
  | cons r rest ih =>
    intro i idx lowest cand hnz hi hlt hfirst hmin
    have h0 : r.getTotalItems ≠ 0 := by
      have := hnz 0 (Nat.succ_pos _)
      rw [totalAt_zero] at this
      exact this
    cases i with
    | zero =>
      rw [totalAt_zero] at hlt hfirst hmin
      have hl : lowest > r.getTotalItems := hlt
      simp only [scanRegisters, if_neg h0, if_pos hl]
      rw [scanRegisters_stable rest (idx + 1) r.getTotalItems (some idx) (fun m hm => by
        constructor
        · have := hmin (m + 1) (Nat.succ_lt_succ hm)
          rw [totalAt_succ] at this
          exact this
        · have := hnz (m + 1) (Nat.succ_lt_succ hm)
          rw [totalAt_succ] at this
          exact this)]
      rw [Nat.add_zero]
    | succ n =>
      have harith : idx + 1 + n = idx + (n + 1) := by omega
      have hnz2 : ∀ m, m < rest.length → totalAt rest m ≠ 0 := fun m hm => by
        have := hnz (m + 1) (Nat.succ_lt_succ hm)
        rw [totalAt_succ] at this
        exact this
      have hfirst2 : ∀ m, m < n → totalAt rest n < totalAt rest m := fun m hm => by
        have := hfirst (m + 1) (Nat.succ_lt_succ hm)
        rw [totalAt_succ, totalAt_succ] at this
        exact this
      have hmin2 : ∀ m, m < rest.length → totalAt rest n ≤ totalAt rest m := fun m hm => by
        have := hmin (m + 1) (Nat.succ_lt_succ hm)
        rw [totalAt_succ, totalAt_succ] at this
        exact this
      have hi2 : n < rest.length := Nat.lt_of_succ_lt_succ hi
      have hlt0 : totalAt rest n < r.getTotalItems := by
        have := hfirst 0 (Nat.succ_pos _)
        rw [totalAt_zero, totalAt_succ] at this
        exact this
      simp only [scanRegisters, if_neg h0]
      by_cases hl : lowest > r.getTotalItems
      · rw [if_pos hl]
        rw [ih n (idx + 1) r.getTotalItems (some idx) hnz2 hi2 hlt0 hfirst2 hmin2]
        rw [harith]
      · rw [if_neg hl]
        rw [ih n (idx + 1) lowest cand hnz2 hi2
            (by rw [totalAt_succ] at hlt; exact hlt) hfirst2 hmin2]
        rw [harith]

theorem scanRegisters_bound (regs : List Register) :
    ∀ (idx lowest : Nat) (cand : Option Nat) (j : Nat),
      (∀ j0, cand = some j0 → j0 < idx) →
      (scanRegisters regs idx lowest cand = ScanOutcome.earlyExit j →
        j < idx + regs.length) ∧
      (scanRegisters regs idx lowest cand = ScanOutcome.done (some j) →
        j < idx + regs.length) := by
  induction regs with
  | nil =>
    intro idx lowest cand j hc
    constructor
    · intro h; cases h
    · intro h
      simp only [scanRegisters] at h
      cases h
      have := hc j rfl
      omega
  | cons r rest ih =>
    intro idx lowest cand j hc
    simp only [scanRegisters]
    by_cases h0 : r.getTotalItems = 0
    · rw [if_pos h0]
      constructor
      · intro h
        cases h
        simp only [List.length_cons]
        omega
      · intro h; cases h
    · rw [if_neg h0]
      by_cases hl : lowest > r.getTotalItems
      · rw [if_pos hl]
        have := ih (idx + 1) r.getTotalItems (some idx) j
          (fun j0 he => by cases he; omega)
        simp only [List.length_cons]
        constructor
        · intro h; have h2 := this.1 h; omega
        · intro h; have h2 := this.2 h; omega
      · rw [if_neg hl]
        have := ih (idx + 1) lowest cand j
          (fun j0 he => by have := hc j0 he; omega)
        simp only [List.length_cons]
        constructor
        · intro h; have h2 := this.1 h; omega
        · intro h; have h2 := this.2 h; omega

/-! ### Store-level helper lemmas -/

theorem lockRegisters_unlockRegisters (s : Store) :
    s.lockRegisters.unlockRegisters = s := by
  simp only [Store.lockRegisters, Store.unlockRegisters, List.map_map]
  have hcomp : Register.unlockRegister ∘ Register.lockRegister = id := by
    funext r
    exact lockRegister_unlockRegister r
  rw [hcomp, List.map_id]

theorem getTotalItems_lockRegister (r : Register) :
    r.lockRegister.getTotalItems = r.getTotalItems := rfl

theorem scanRegisters_map_lock (regs : List Register) :
    ∀ (idx lowest : Nat) (cand : Option Nat),
      scanRegisters (regs.map Register.lockRegister) idx lowest cand
        = scanRegisters regs idx lowest cand := by
  induction regs with
  | nil => intro idx lowest cand; rfl
  | cons r rest ih =>
    intro idx lowest cand
    simp only [List.map_cons, scanRegisters, getTotalItems_lockRegister]
    by_cases h0 : r.getTotalItems = 0
    · rw [if_pos h0, if_pos h0]
    · rw [if_neg h0, if_neg h0]
      by_cases hl : lowest > r.getTotalItems
      · rw [if_pos hl, if_pos hl, ih]
      · rw [if_neg hl, if_neg hl, ih]

theorem getLeastUtilized_eq_scan (s : Store) :
    s.getLeastUtilizedRegister =
      match scanRegisters s.registers 0 sysMaxsize none with
      | ScanOutcome.earlyExit i => (Except.ok i, s)
      | ScanOutcome.done (some i) => (Except.ok i, s)
      | ScanOutcome.done none =>
          (Except.error StoreError.invalidRegisterState, s.lockRegisters) := by
  simp only [Store.getLeastUtilizedRegister]
  have hregs : s.lockRegisters.registers = s.registers.map Register.lockRegister := rfl
  rw [hregs, scanRegisters_map_lock]
  cases hscan : scanRegisters s.registers 0 sysMaxsize none with
  | earlyExit i => simp [lockRegisters_unlockRegisters]
  | done cand => cases cand <;> simp [lockRegisters_unlockRegisters]

theorem getLeastUtilized_ok (s : Store) (i : Nat)
    (h : (s.getLeastUtilizedRegister).1 = Except.ok i) :
    (s.getLeastUtilizedRegister).2 = s ∧ i < s.registers.length := by
  rw [getLeastUtilized_eq_scan] at h ⊢
  cases hscan : scanRegisters s.registers 0 sysMaxsize none with
  | earlyExit j =>
    have hb := (scanRegisters_bound s.registers 0 sysMaxsize none j
      (fun j0 he => by cases he)).1 hscan
    rw [hscan] at h
    simp at h
    subst h
    exact ⟨rfl, by omega⟩
  | done cand =>
    cases cand with
    | none => rw [hscan] at h; cases h
    | some j =>
      have hb := (scanRegisters_bound s.registers 0 sysMaxsize none j
        (fun j0 he => by cases he)).2 hscan
      rw [hscan] at h
      simp at h
      subst h
      exact ⟨rfl, by omega⟩

/-! ### Small auxiliary lemmas -/

theorem customer_id_addItem (cart : Cart) (it : Nat) :
    (cart.addItem it).customer_id = cart.customer_id := rfl

theorem dictMem_dictSet_of_mem {α : Type} {m : List (Nat × α)} {k k2 : Nat} (v : α)
    (h : dictMem m k2 = true) : dictMem (dictSet m k v) k2 = true := by
  by_cases he : k2 = k
  · subst he
    unfold dictMem
    rw [dictLookup_dictSet_self]
    rfl
  · unfold dictMem at h ⊢
    rw [dictLookup_dictSet_ne m v he]
    exact h

theorem mem_dictErase_key_ne {α : Type} {m : List (Nat × α)} {k : Nat} {p : Nat × α}
    (hn : (dictKeys m).Nodup) (h : p ∈ dictErase m k) : p.1 ≠ k := by
  induction m with
  | nil => cases h
  | cons q rest ih =>
    obtain ⟨k0, v0⟩ := q
    rw [dictKeys_cons] at hn
    have hn2 := List.nodup_cons.mp hn
    by_cases hk : k0 = k
    · subst hk
      rw [show dictErase ((k0, v0) :: rest) k0 = rest by simp [dictErase]] at h
      intro he
      have hmem : p.1 ∈ List.map Prod.fst rest := List.mem_map_of_mem Prod.fst h
      rw [he] at hmem
      exact hn2.1 hmem
    · rw [show dictErase ((k0, v0) :: rest) k = (k0, v0) :: dictErase rest k by
        simp [dictErase, hk]] at h
      rcases List.mem_cons.mp h with he | hm
      · rw [he]; exact hk
      · exact ih hn2.2 hm

theorem dictMem_exists {α : Type} {m : List (Nat × α)} {k : Nat}
    (h : dictMem m k = true) : ∃ v, dictLookup m k = some v := by
  unfold dictMem at h
  exact Option.isSome_iff_exists.mp h

theorem key_mem_dictKeys {α : Type} {m : List (Nat × α)} {p : Nat × α}
    (h : p ∈ m) : p.1 ∈ dictKeys m :=
  List.mem_map_of_mem Prod.fst h

/-! ### Operation characterizations -/

theorem assignItem_mapped {s : Store} {c i : Nat} (it : Nat)
    (h : dictLookup s.register_map c = some i) :
    s.assignItem c it = (Except.ok (),
      { s with registers :=
          modifyIdx s.registers i (fun register => register.addItemToCart c it) }) := by
  unfold Store.assignItem
  rw [h]

theorem assignItem_unmapped_ok {s : Store} {c j : Nat} (it : Nat)
    (hm : dictLookup s.register_map c = none)
    (hs : (s.getLeastUtilizedRegister).1 = Except.ok j) :
    s.assignItem c it = (Except.ok (),
      { s with
          registers := modifyIdx s.registers j (fun register => register.addItemToCart c it)
          register_map := dictSet s.register_map c j }) := by
  have h2 := getLeastUtilized_ok s j hs
  have hpair : s.getLeastUtilizedRegister = (Except.ok j, s) := by
    cases hp : s.getLeastUtilizedRegister with
    | mk a b =>
      rw [hp] at hs h2
      simp at hs h2
      rw [hs, h2.1]
  unfold Store.assignItem
  rw [hm, hpair]

theorem assignItem_unmapped_err {s : Store} {c : Nat} {e : StoreError} (it : Nat)
    (hm : dictLookup s.register_map c = none)
    (hs : (s.getLeastUtilizedRegister).1 = Except.error e) :
    s.assignItem c it = (Except.error e, (s.getLeastUtilizedRegister).2) := by
  unfold Store.assignItem
  rw [hm]
  cases hp : s.getLeastUtilizedRegister with
  | mk a b =>
    rw [hp] at hs
    simp at hs
    rw [hs]

theorem scan_err_state (s : Store)
    (hs : (s.getLeastUtilizedRegister).1 = Except.error StoreError.invalidRegisterState) :
    (s.getLeastUtilizedRegister).2 = s.lockRegisters := by
  rw [getLeastUtilized_eq_scan] at hs ⊢
  cases hscan : scanRegisters s.registers 0 sysMaxsize none with
  | earlyExit j => rw [hscan] at hs; cases hs
  | done cand =>
    cases cand with
    | none => rfl
    | some j => rw [hscan] at hs; cases hs

theorem checkoutCustomer_unmapped {s : Store} {c : Nat}
    (h : dictLookup s.register_map c = none) :
    s.checkoutCustomer c = (Except.error StoreError.checkoutWithoutCart, s) := by
  unfold Store.checkoutCustomer
  rw [h]

theorem checkoutCustomer_mapped_mem {s : Store} {c i : Nat}
    (h : dictLookup s.register_map c = some i)
    (hm : dictMem (s.getRegister i).customer_cart_map c = true) :
    s.checkoutCustomer c = (Except.ok (),
      { s with
          registers := modifyIdx s.registers i (fun _ =>
            { s.getRegister i with
                customer_cart_map := dictErase (s.getRegister i).customer_cart_map c })
          register_map := dictErase s.register_map c }) := by
  unfold Store.checkoutCustomer
  rw [h]
  dsimp only
  rw [checkoutCart_eq_mem hm]

theorem checkoutCustomer_mapped_not_mem {s : Store} {c i : Nat}
    (h : dictLookup s.register_map c = some i)
    (hm : dictMem (s.getRegister i).customer_cart_map c = false) :
    s.checkoutCustomer c = (Except.error StoreError.cartNotFound,
      { s with registers :=
          modifyIdx s.registers i (fun _ => (s.getRegister i).lockRegister) }) := by
  unfold Store.checkoutCustomer
  rw [h]
  dsimp only
  rw [checkoutCart_eq_not_mem hm]

theorem getRegister_modify_self {s : Store} {i : Nat} (f : Register → Register)
    (hm : List (Nat × Nat)) (h : i < s.registers.length) :
    ({ registers := modifyIdx s.registers i f, register_map := hm } : Store).getRegister i
      = f (s.getRegister i) :=
  getD_modifyIdx_self f _ h

theorem getRegister_modify_ne {s : Store} {i j : Nat} (f : Register → Register)
    (hm : List (Nat × Nat)) (h : j ≠ i) :
    ({ registers := modifyIdx s.registers i f, register_map := hm } : Store).getRegister j
      = s.getRegister j :=
  getD_modifyIdx_ne f _ h

/-! ### Register projection lemmas -/

theorem register_id_addItemToCart (r : Register) (c it : Nat) :
    (r.addItemToCart c it).register_id = r.register_id := by
  rw [addItemToCart_eq]

theorem lock_addItemToCart (r : Register) (c it : Nat) :
    (r.addItemToCart c it).lock = r.lock := by
  rw [addItemToCart_eq]

theorem lookup_addItemToCart_ne {r : Register} {c c2 : Nat} (it : Nat) (h : c2 ≠ c) :
    dictLookup (r.addItemToCart c it).customer_cart_map c2
      = dictLookup r.customer_cart_map c2 := by
  rw [addItemToCart_eq]
  cases hl : dictLookup r.customer_cart_map c <;> dsimp only <;>
    exact dictLookup_dictSet_ne _ _ h

theorem lookup_addItemToCart_some {r : Register} {c : Nat} {cart : Cart} (it : Nat)
    (h : dictLookup r.customer_cart_map c = some cart) :
    dictLookup (r.addItemToCart c it).customer_cart_map c = some (cart.addItem it) := by
  rw [addItemToCart_eq_some it h]
  exact dictLookup_dictSet_self _ _ _

theorem lookup_addItemToCart_none {r : Register} {c : Nat} (it : Nat)
    (h : dictLookup r.customer_cart_map c = none) :
    dictLookup (r.addItemToCart c it).customer_cart_map c = some (Cart.mk c [it]) := by
  rw [addItemToCart_eq, h]
  dsimp only
  exact dictLookup_dictSet_self _ _ _

theorem dictMem_addItemToCart_ne {r : Register} {c c2 : Nat} (it : Nat) (h : c2 ≠ c) :
    dictMem (r.addItemToCart c it).customer_cart_map c2
      = dictMem r.customer_cart_map c2 := by
  unfold dictMem
  rw [lookup_addItemToCart_ne it h]

theorem keys_addItemToCart_nodup {r : Register} (c it : Nat)
    (hn : (dictKeys r.customer_cart_map).Nodup) :
    (dictKeys (r.addItemToCart c it).customer_cart_map).Nodup := by
  rw [addItemToCart_eq]
  cases hl : dictLookup r.customer_cart_map c <;> dsimp only <;>
    exact dictKeys_dictSet_nodup _ _ hn

/-! ### The invariant holds initially and is preserved -/

theorem length_registers_init (n : Nat) : (Store.init n).registers.length = n := by
  simp [Store.init]

theorem getRegister_init (n j : Nat) (hj : j < n) :
    (Store.init n).getRegister j = Register.init j := by
  unfold Store.getRegister Store.init
  dsimp only
  rw [getD_map Register.init (Register.init 0) 0 (by simpa using hj)]
  have h2 : j < (List.range n).length := by simpa using hj
  rw [List.getD_eq_getElem _ _ h2, List.getElem_range]

theorem inv_init (n : Nat) : (Store.init n).Inv := by
  refine ⟨?_, ?_, ?_⟩
  · simp [Store.init, dictKeys]
  · intro p hp
    simp [Store.init] at hp
  · intro j hj
    rw [length_registers_init] at hj
    rw [getRegister_init n j hj]
    refine ⟨by simp [Register.init, dictKeys], rfl, ?_⟩
    intro q hq
    simp [Register.init] at hq

theorem getRegister_lockRegisters (s : Store) (j : Nat) (hj : j < s.registers.length) :
    s.lockRegisters.getRegister j = (s.getRegister j).lockRegister := by
  unfold Store.getRegister Store.lockRegisters
  dsimp only
  exact getD_map Register.lockRegister (Register.init 0) (Register.init 0) hj

theorem inv_lockRegisters (s : Store) (hinv : s.Inv) : s.lockRegisters.Inv := by
  obtain ⟨hnk, hmap, hreg⟩ := hinv
  have hlen : s.lockRegisters.registers.length = s.registers.length := by
    simp [Store.lockRegisters]
  have hrm : s.lockRegisters.register_map = s.register_map := rfl
  refine ⟨by rw [hrm]; exact hnk, ?_, ?_⟩
  · intro p hp
    rw [hrm] at hp
    have h2 := hmap p hp
    rw [hlen, getRegister_lockRegisters s p.2 h2.1]
    exact ⟨h2.1, h2.2⟩
  · intro j hj
    rw [hlen] at hj
    rw [getRegister_lockRegisters s j hj]
    have h2 := hreg j hj
    refine ⟨h2.1, h2.2.1, ?_⟩
    intro q hq
    rw [hrm]
    exact h2.2.2 q hq

theorem unmapped_not_in_register {s : Store} (hinv : s.Inv) {c : Nat}
    (h : dictLookup s.register_map c = none) (j : Nat) (hj : j < s.registers.length) :
    dictLookup (s.getRegister j).customer_cart_map c = none := by
  obtain ⟨hnk, hmap, hreg⟩ := hinv
  rw [dictLookup_eq_none_iff]
  intro hkc
  obtain ⟨p, hp, hp1⟩ := List.mem_map.mp hkc
  have h3 := (hreg j hj).2.2 p hp
  rw [hp1] at h3
  rw [h3.2] at h
  cases h

theorem mapped_register_has_cart {s : Store} (hinv : s.Inv) {c i : Nat}
    (h : dictLookup s.register_map c = some i) :
    i < s.registers.length ∧
      ∃ cart, dictLookup (s.getRegister i).customer_cart_map c = some cart := by
  obtain ⟨hnk, hmap, hreg⟩ := hinv
  have hp := hmap (c, i) (mem_of_dictLookup_eq_some h)
  exact ⟨hp.1, dictMem_exists hp.2⟩

theorem inv_assign_mapped {s : Store} {c i : Nat} (it : Nat) (hinv : s.Inv)
    (h : dictLookup s.register_map c = some i) :
    ((s.assignItem c it).2).Inv := by
  have hmc := mapped_register_has_cart hinv h
  have hilen := hmc.1
  obtain ⟨cart, hcart⟩ := hmc.2
  obtain ⟨hnk, hmap, hreg⟩ := hinv
  rw [assignItem_mapped it h]
  dsimp only
  refine ⟨hnk, ?_, ?_⟩
  · intro p hp
    have h2 := hmap p hp
    constructor
    · rw [length_modifyIdx]
      exact h2.1
    · by_cases hpi : p.2 = i
      · rw [hpi]
        rw [getRegister_modify_self _ _ hilen]
        by_cases hpc : p.1 = c
        · rw [hpc]
          unfold dictMem
          rw [lookup_addItemToCart_some it hcart]
          rfl
        · rw [dictMem_addItemToCart_ne it hpc]
          rw [hpi] at h2
          exact h2.2
      · rw [getRegister_modify_ne _ _ hpi]
        exact h2.2
  · intro j hj
    rw [length_modifyIdx] at hj
    by_cases hji : j = i
    · subst hji
      rw [getRegister_modify_self _ _ hilen]
      have h3 := hreg j hj
      refine ⟨keys_addItemToCart_nodup _ _ h3.1, ?_, ?_⟩
      · rw [register_id_addItemToCart]
        exact h3.2.1
      · intro q hq
        rw [addItemToCart_eq_some it hcart] at hq
        dsimp only at hq
        rcases mem_dictSet hq with he | hmem
        · rw [he]
          refine ⟨?_, h⟩
          rw [customer_id_addItem]
          exact (h3.2.2 (c, cart) (mem_of_dictLookup_eq_some hcart)).1
        · exact h3.2.2 q hmem
    · rw [getRegister_modify_ne _ _ hji]
      have h3 := hreg j hj
      exact ⟨h3.1, h3.2.1, fun q hq => h3.2.2 q hq⟩

theorem inv_assign_unmapped {s : Store} {c j : Nat} (it : Nat) (hinv : s.Inv)
    (hm : dictLookup s.register_map c = none)
    (hs : (s.getLeastUtilizedRegister).1 = Except.ok j) :
    ((s.assignItem c it).2).Inv := by
  have hjlen := (getLeastUtilized_ok s j hs).2
  have hnew : dictLookup (s.getRegister j).customer_cart_map c = none :=
    unmapped_not_in_register hinv hm j hjlen
  have hnotin : ∀ j2, j2 < s.registers.length →
      dictLookup (s.getRegister j2).customer_cart_map c = none :=
    fun j2 hj2 => unmapped_not_in_register hinv hm j2 hj2
  obtain ⟨hnk, hmap, hreg⟩ := hinv
  rw [assignItem_unmapped_ok it hm hs]
  dsimp only
  refine ⟨dictKeys_dictSet_nodup _ _ hnk, ?_, ?_⟩
  · intro p hp
    rcases mem_dictSet hp with he | hmem
    · rw [he]
      dsimp only
      constructor
      · rw [length_modifyIdx]
        exact hjlen
      · rw [getRegister_modify_self _ _ hjlen]
        unfold dictMem
        rw [lookup_addItemToCart_none it hnew]
        rfl
    · have h2 := hmap p hmem
      constructor
      · rw [length_modifyIdx]
        exact h2.1
      · by_cases hpj : p.2 = j
        · rw [hpj]
          rw [getRegister_modify_self _ _ hjlen]
          have hpc : p.1 ≠ c := by
            intro he2
            have hkm := key_mem_dictKeys hmem
            rw [he2] at hkm
            exact (dictLookup_eq_none_iff _ _).mp hm hkm
          rw [dictMem_addItemToCart_ne it hpc]
          rw [hpj] at h2
          exact h2.2
        · rw [getRegister_modify_ne _ _ hpj]
          exact h2.2
  · intro j2 hj2
    rw [length_modifyIdx] at hj2
    by_cases hjj : j2 = j
    · subst hjj
      rw [getRegister_modify_self _ _ hjlen]
      have h3 := hreg j2 hj2
      refine ⟨keys_addItemToCart_nodup _ _ h3.1, ?_, ?_⟩
      · rw [register_id_addItemToCart]
        exact h3.2.1
      · intro q hq
        rw [addItemToCart_eq, hnew] at hq
        dsimp only at hq
        rcases mem_dictSet hq with he | hmem
        · rw [he]
          exact ⟨rfl, dictLookup_dictSet_self _ _ _⟩
        · have h4 := h3.2.2 q hmem
          have hqc : q.1 ≠ c := by
            intro he2
            rw [he2] at h4
            rw [h4.2] at hm
            cases hm
          refine ⟨h4.1, ?_⟩
          rw [dictLookup_dictSet_ne _ _ hqc]
          exact h4.2
    · rw [getRegister_modify_ne _ _ hjj]
      have h3 := hreg j2 hj2
      refine ⟨h3.1, h3.2.1, ?_⟩
      intro q hq
      have h4 := h3.2.2 q hq
      have hqc : q.1 ≠ c := by
        intro he2
        rw [he2] at h4
        rw [h4.2] at hm
        cases hm
      refine ⟨h4.1, ?_⟩
      rw [dictLookup_dictSet_ne _ _ hqc]
      exact h4.2

theorem inv_checkout_ok {s : Store} {c i : Nat} (hinv : s.Inv)
    (h : dictLookup s.register_map c = some i)
    (hm : dictMem (s.getRegister i).customer_cart_map c = true) :
    ((s.checkoutCustomer c).2).Inv := by
  have hmc := mapped_register_has_cart hinv h
  have hilen := hmc.1
  obtain ⟨hnk, hmap, hreg⟩ := hinv
  rw [checkoutCustomer_mapped_mem h hm]
  dsimp only
  refine ⟨dictKeys_dictErase_nodup _ hnk, ?_, ?_⟩
  · intro p hp
    have hpm := mem_dictErase hp
    have hpc : p.1 ≠ c := mem_dictErase_key_ne hnk hp
    have h2 := hmap p hpm
    constructor
    · rw [length_modifyIdx]
      exact h2.1
    · by_cases hpi : p.2 = i
      · rw [hpi]
        rw [getRegister_modify_self _ _ hilen]
        unfold dictMem
        rw [show ({ s.getRegister i with
            customer_cart_map := dictErase (s.getRegister i).customer_cart_map c } :
              Register).customer_cart_map
          = dictErase (s.getRegister i).customer_cart_map c from rfl]
        rw [dictLookup_dictErase_ne _ hpc]
        rw [hpi] at h2
        exact h2.2
      · rw [getRegister_modify_ne _ _ hpi]
        exact h2.2
  · intro j hj
    rw [length_modifyIdx] at hj
    by_cases hji : j = i
    · subst hji
      rw [getRegister_modify_self _ _ hilen]
      have h3 := hreg j hj
      refine ⟨dictKeys_dictErase_nodup _ h3.1, h3.2.1, ?_⟩
      intro q hq
      dsimp only at hq
      have hqm := mem_dictErase hq
      have hqc : q.1 ≠ c := mem_dictErase_key_ne h3.1 hq
      have h4 := h3.2.2 q hqm
      refine ⟨h4.1, ?_⟩
      rw [dictLookup_dictErase_ne _ hqc]
      exact h4.2
    · rw [getRegister_modify_ne _ _ hji]
      have h3 := hreg j hj
      refine ⟨h3.1, h3.2.1, ?_⟩
      intro q hq
      have h4 := h3.2.2 q hq
      have hqc : q.1 ≠ c := by
        intro he2
        rw [he2] at h4
        rw [h4.2] at h
        cases h
        exact hji rfl
      refine ⟨h4.1, ?_⟩
      rw [dictLookup_dictErase_ne _ hqc]
      exact h4.2

theorem getRegister_ge (s : Store) {j : Nat} (h : s.registers.length ≤ j) :
    s.getRegister j = Register.init 0 :=
  getD_of_ge _ h

theorem scan_err_state_any (s : Store) {e : StoreError}
    (hs : (s.getLeastUtilizedRegister).1 = Except.error e) :
    (s.getLeastUtilizedRegister).2 = s.lockRegisters := by
  rw [getLeastUtilized_eq_scan] at hs ⊢
  cases hscan : scanRegisters s.registers 0 sysMaxsize none with
  | earlyExit j => rw [hscan] at hs; cases hs
  | done cand =>
    cases cand with
    | none => rfl
    | some j => rw [hscan] at hs; cases hs

theorem inv_assignItem (s : Store) (c it : Nat) (hinv : s.Inv) :
    ((s.assignItem c it).2).Inv := by
  cases h : dictLookup s.register_map c with
  | some i => exact inv_assign_mapped it hinv h
  | none =>
    cases hs : (s.getLeastUtilizedRegister).1 with
    | ok j => exact inv_assign_unmapped it hinv h hs
    | error e =>
      rw [assignItem_unmapped_err it h hs]
      dsimp only
      rw [scan_err_state_any s hs]
      exact inv_lockRegisters s hinv

theorem inv_checkoutCustomer (s : Store) (c : Nat) (hinv : s.Inv) :
    ((s.checkoutCustomer c).2).Inv := by
  cases h : dictLookup s.register_map c with
  | none =>
    rw [checkoutCustomer_unmapped h]
    exact hinv
  | some i =>
    cases hm : dictMem (s.getRegister i).customer_cart_map c with
    | true => exact inv_checkout_ok hinv h hm
    | false =>
      exfalso
      have h2 := mapped_register_has_cart hinv h
      obtain ⟨cart, hc⟩ := h2.2
      unfold dictMem at hm
      rw [hc] at hm
      cases hm

theorem inv_applyOp (s : Store) (op : Op) (hinv : s.Inv) : (s.applyOp op).Inv := by
  cases op with
  | assign c it => exact inv_assignItem s c it hinv
  | checkout c => exact inv_checkoutCustomer s c hinv

theorem inv_reachable {s : Store} (h : Reachable s) : s.Inv := by
  induction h with
  | init n => exact inv_init n
  | assign c it hr hok ih => exact inv_assignItem _ c it ih
  | checkout c hr hok ih => exact inv_checkoutCustomer _ c ih

theorem checkout_ok_cases {s : Store} {c : Nat}
    (hok : (s.checkoutCustomer c).1 = Except.ok ()) :
    ∃ i, dictLookup s.register_map c = some i ∧
      dictMem (s.getRegister i).customer_cart_map c = true := by
  cases h : dictLookup s.register_map c with
  | none =>
    rw [checkoutCustomer_unmapped h] at hok
    cases hok
  | some i =>
    cases hm : dictMem (s.getRegister i).customer_cart_map c with
    | false =>
      rw [checkoutCustomer_mapped_not_mem h hm] at hok
      cases hok
    | true => exact ⟨i, rfl, hm⟩

/-! ### Claim C2 -/

/-- C2: after every successful `assignItem` or `checkoutCustomer` operation
starting from a fresh (or reset) store, `register_map` maps customer `c` to
the register at pool position `j` if and only if `c` is a key of that
register's `customer_cart_map`; in particular, after `checkoutCustomer c`
succeeds, `c` is absent from `register_map` and from every register's cart
map. -/
theorem C2_register_map_cart_iff (s : Store) (hr : Reachable s) :
    (∀ c j : Nat,
      dictLookup s.register_map c = some j ↔
        (j < s.registers.length ∧
         dictMem (s.getRegister j).customer_cart_map c = true)) ∧
    (∀ c : Nat, (s.checkoutCustomer c).1 = Except.ok () →
      dictLookup ((s.checkoutCustomer c).2).register_map c = none ∧
      ∀ j : Nat,
        dictMem (((s.checkoutCustomer c).2).getRegister j).customer_cart_map c
          = false) := by
  have hinv := inv_reachable hr
  obtain ⟨hnk, hmap, hreg⟩ := hinv
  constructor
  · intro c j
    constructor
    · intro h
      exact hmap (c, j) (mem_of_dictLookup_eq_some h)
    · rintro ⟨hj, hmem⟩
      obtain ⟨cart, hcart⟩ := dictMem_exists hmem
      exact ((hreg j hj).2.2 (c, cart) (mem_of_dictLookup_eq_some hcart)).2
  · intro c hok
    have hinv2 : ((s.checkoutCustomer c).2).Inv :=
      inv_checkoutCustomer s c ⟨hnk, hmap, hreg⟩
    have hnone : dictLookup ((s.checkoutCustomer c).2).register_map c = none := by
      obtain ⟨i, h, hm⟩ := checkout_ok_cases hok
      rw [checkoutCustomer_mapped_mem h hm]
      dsimp only
      exact dictLookup_dictErase_self c hnk
    refine ⟨hnone, ?_⟩
    intro j
    obtain ⟨hnk2, hmap2, hreg2⟩ := hinv2
    by_cases hjlen : j < ((s.checkoutCustomer c).2).registers.length
    · cases hmm : dictMem (((s.checkoutCustomer c).2).getRegister j).customer_cart_map c with
      | false => rfl
      | true =>
        obtain ⟨cart, hcart⟩ := dictMem_exists hmm
        have h3 := ((hreg2 j hjlen).2.2 (c, cart) (mem_of_dictLookup_eq_some hcart)).2
        rw [h3] at hnone
        cases hnone
    · rw [getRegister_ge _ (Nat.le_of_not_lt hjlen)]
      rfl

/-- A concrete reachable store: two registers, one item assigned to
customer 0 (which lands on register 0). -/
def storeA : Store := ((Store.init 2).assignItem 0 5).2

theorem reachable_storeA : Reachable storeA :=
  Reachable.assign 0 5 (Reachable.init 2) (by decide)

/-- Witness for C2 at a concrete reachable store. -/
theorem C2_register_map_cart_iff_witness :
    dictLookup storeA.register_map 0 = some 0 ∧
    dictLookup ((storeA.checkoutCustomer 0).2).register_map 0 = none ∧
    dictMem (((storeA.checkoutCustomer 0).2).getRegister 0).customer_cart_map 0
      = false := by
  have h := C2_register_map_cart_iff storeA reachable_storeA
  exact ⟨(h.1 0 0).mpr (by decide), (h.2 0 (by decide)).1, (h.2 0 (by decide)).2 0⟩

/-! ### Claim C3 -/

/-- C3: `checkoutCustomer c` fails with the "no cart to checkout"
(`checkoutWithoutCart`) error iff `c` is not a key of `register_map`; that
failure leaves the store unchanged; and whenever the register-level cart
removal fails, the store-level `register_map` entry for `c` survives. -/
theorem C3_checkout_error_behavior (s : Store) (c : Nat) :
    ((s.checkoutCustomer c).1 = Except.error StoreError.checkoutWithoutCart ↔
      dictLookup s.register_map c = none) ∧
    (dictLookup s.register_map c = none → (s.checkoutCustomer c).2 = s) ∧
    (∀ i : Nat, dictLookup s.register_map c = some i →
      ((s.getRegister i).checkoutCart c).1 = Except.error StoreError.cartNotFound →
      dictLookup ((s.checkoutCustomer c).2).register_map c = some i) := by
  refine ⟨⟨?_, ?_⟩, ?_, ?_⟩
  · intro hf
    cases h : dictLookup s.register_map c with
    | none => rfl
    | some i =>
      exfalso
      cases hm : dictMem (s.getRegister i).customer_cart_map c with
      | true =>
        rw [checkoutCustomer_mapped_mem h hm] at hf
        simp at hf
      | false =>
        rw [checkoutCustomer_mapped_not_mem h hm] at hf
        simp at hf
  · intro h
    rw [checkoutCustomer_unmapped h]
  · intro h
    rw [checkoutCustomer_unmapped h]
  · intro i h hf
    cases hm : dictMem (s.getRegister i).customer_cart_map c with
    | true =>
      exfalso
      rw [checkoutCart_eq_mem hm] at hf
      simp at hf
    | false =>
      rw [checkoutCustomer_mapped_not_mem h hm]
      exact h

/-- A store whose routing table points at a register that does not hold the
customer's cart (an inconsistent state that `checkoutCustomer` must not make
worse). -/
def storeBad : Store := { registers := [Register.init 0], register_map := [(7, 0)] }

/-- Witness for C3: the register-level failure keeps the routing entry, the
unmapped failure keeps the whole store. -/
theorem C3_checkout_error_behavior_witness :
    dictLookup ((storeBad.checkoutCustomer 7).2).register_map 7 = some 0 ∧
    (storeBad.checkoutCustomer 9).2 = storeBad ∧
    ((storeBad.checkoutCustomer 9).1 = Except.error StoreError.checkoutWithoutCart ↔
      dictLookup storeBad.register_map 9 = none) := by
  have h7 := C3_checkout_error_behavior storeBad 7
  have h9 := C3_checkout_error_behavior storeBad 9
  exact ⟨h7.2.2 0 (by decide) (by decide), h9.2.1 (by decide), h9.1⟩

/-! ### Length preservation -/

theorem length_assignItem (s : Store) (c it : Nat) :
    ((s.assignItem c it).2).registers.length = s.registers.length := by
  cases h : dictLookup s.register_map c with
  | some i =>
    rw [assignItem_mapped it h]
    exact length_modifyIdx _ _ _
  | none =>
    cases hs : (s.getLeastUtilizedRegister).1 with
    | ok j =>
      rw [assignItem_unmapped_ok it h hs]
      exact length_modifyIdx _ _ _
    | error e =>
      rw [assignItem_unmapped_err it h hs, scan_err_state_any s hs]
      exact List.length_map _ _

theorem length_checkoutCustomer (s : Store) (c : Nat) :
    ((s.checkoutCustomer c).2).registers.length = s.registers.length := by
  cases h : dictLookup s.register_map c with
  | none => rw [checkoutCustomer_unmapped h]
  | some i =>
    cases hm : dictMem (s.getRegister i).customer_cart_map c with
    | true =>
      rw [checkoutCustomer_mapped_mem h hm]
      exact length_modifyIdx _ _ _
    | false =>
      rw [checkoutCustomer_mapped_not_mem h hm]
      exact length_modifyIdx _ _ _

/-! ### Claim C10 -/

/-- C10: a successful `assignItem c it` changes only customer `c`'s routing
entry and only `c`'s cart within the single register `c` is (or becomes)
assigned to; a successful `checkoutCustomer c` removes only `c`'s cart entry
and routing entry.  Every other register, cart and routing entry is
unchanged. -/
theorem C10_frame_effects (s : Store) (hr : Reachable s) (c it : Nat) :
    ((s.assignItem c it).1 = Except.ok () →
      ∃ j, dictLookup ((s.assignItem c it).2).register_map c = some j ∧
        (∀ c2, c2 ≠ c →
          dictLookup ((s.assignItem c it).2).register_map c2
            = dictLookup s.register_map c2) ∧
        (∀ k, k ≠ j → ((s.assignItem c it).2).getRegister k = s.getRegister k) ∧
        (∀ c2, c2 ≠ c →
          dictLookup (((s.assignItem c it).2).getRegister j).customer_cart_map c2
            = dictLookup (s.getRegister j).customer_cart_map c2)) ∧
    ((s.checkoutCustomer c).1 = Except.ok () →
      ∃ j, dictLookup s.register_map c = some j ∧
        (∀ c2, c2 ≠ c →
          dictLookup ((s.checkoutCustomer c).2).register_map c2
            = dictLookup s.register_map c2) ∧
        (∀ k, k ≠ j → ((s.checkoutCustomer c).2).getRegister k = s.getRegister k) ∧
        (∀ c2, c2 ≠ c →
          dictLookup (((s.checkoutCustomer c).2).getRegister j).customer_cart_map c2
            = dictLookup (s.getRegister j).customer_cart_map c2) ∧
        dictLookup (((s.checkoutCustomer c).2).getRegister j).customer_cart_map c
          = none) := by
  have hinv := inv_reachable hr
  constructor
  · intro hok
    cases h : dictLookup s.register_map c with
    | some i =>
      have hilen := (mapped_register_has_cart hinv h).1
      refine ⟨i, ?_, ?_, ?_, ?_⟩
      · rw [assignItem_mapped it h]
        exact h
      · intro c2 hc2
        rw [assignItem_mapped it h]
      · intro k hk
        rw [assignItem_mapped it h]
        exact getRegister_modify_ne _ _ hk
      · intro c2 hc2
        rw [assignItem_mapped it h]
        rw [getRegister_modify_self _ _ hilen]
        exact lookup_addItemToCart_ne it hc2
    | none =>
      cases hs : (s.getLeastUtilizedRegister).1 with
      | error e =>
        rw [assignItem_unmapped_err it h hs] at hok
        simp at hok
      | ok j =>
        have hjlen := (getLeastUtilized_ok s j hs).2
        refine ⟨j, ?_, ?_, ?_, ?_⟩
        · rw [assignItem_unmapped_ok it h hs]
          exact dictLookup_dictSet_self _ _ _
        · intro c2 hc2
          rw [assignItem_unmapped_ok it h hs]
          exact dictLookup_dictSet_ne _ _ hc2
        · intro k hk
          rw [assignItem_unmapped_ok it h hs]
          exact getRegister_modify_ne _ _ hk
        · intro c2 hc2
          rw [assignItem_unmapped_ok it h hs]
          rw [getRegister_modify_self _ _ hjlen]
          exact lookup_addItemToCart_ne it hc2
  · intro hok
    obtain ⟨i, h, hm⟩ := checkout_ok_cases hok
    have hilen := (mapped_register_has_cart hinv h).1
    obtain ⟨hnk, hmap, hreg⟩ := hinv
    refine ⟨i, h, ?_, ?_, ?_, ?_⟩
    · intro c2 hc2
      rw [checkoutCustomer_mapped_mem h hm]
      exact dictLookup_dictErase_ne _ hc2
    · intro k hk
      rw [checkoutCustomer_mapped_mem h hm]
      exact getRegister_modify_ne _ _ hk
    · intro c2 hc2
      rw [checkoutCustomer_mapped_mem h hm]
      rw [getRegister_modify_self _ _ hilen]
      exact dictLookup_dictErase_ne _ hc2
    · rw [checkoutCustomer_mapped_mem h hm]
      rw [getRegister_modify_self _ _ hilen]
      exact dictLookup_dictErase_self c (hreg i hilen).1

/-- Witness for C10 at a concrete reachable store. -/
theorem C10_frame_effects_witness :
    (∃ j, dictLookup ((storeA.assignItem 0 6).2).register_map 0 = some j ∧
      (∀ c2, c2 ≠ 0 →
        dictLookup ((storeA.assignItem 0 6).2).register_map c2
          = dictLookup storeA.register_map c2) ∧
      (∀ k, k ≠ j → ((storeA.assignItem 0 6).2).getRegister k = storeA.getRegister k) ∧
      (∀ c2, c2 ≠ 0 →
        dictLookup (((storeA.assignItem 0 6).2).getRegister j).customer_cart_map c2
          = dictLookup (storeA.getRegister j).customer_cart_map c2)) ∧
    (∃ j, dictLookup storeA.register_map 0 = some j ∧
      (∀ c2, c2 ≠ 0 →
        dictLookup ((storeA.checkoutCustomer 0).2).register_map c2
          = dictLookup storeA.register_map c2) ∧
      (∀ k, k ≠ j → ((storeA.checkoutCustomer 0).2).getRegister k = storeA.getRegister k) ∧
      (∀ c2, c2 ≠ 0 →
        dictLookup (((storeA.checkoutCustomer 0).2).getRegister j).customer_cart_map c2
          = dictLookup (storeA.getRegister j).customer_cart_map c2) ∧
      dictLookup (((storeA.checkoutCustomer 0).2).getRegister j).customer_cart_map 0
        = none) := by
  have h := C10_frame_effects storeA reachable_storeA 0 6
  exact ⟨h.1 (by decide), h.2 (by decide)⟩

/-! ### Claim C5: sticky routing -/

/-- The items assigned to customer `c` by a sequence of operations. -/
def itemsFor (c : Nat) : List Op → List Nat
  | [] => []
  | Op.assign c2 it :: rest => if c2 = c then it :: itemsFor c rest else itemsFor c rest
  | Op.checkout _ :: rest => itemsFor c rest

theorem assign_other_frame (s : Store) {c c2 : Nat} (it : Nat) (hne : c ≠ c2) :
    dictLookup ((s.assignItem c2 it).2).register_map c = dictLookup s.register_map c ∧
    ∀ k, dictLookup (((s.assignItem c2 it).2).getRegister k).customer_cart_map c
          = dictLookup (s.getRegister k).customer_cart_map c := by
  cases h : dictLookup s.register_map c2 with
  | some i =>
    rw [assignItem_mapped it h]
    refine ⟨rfl, ?_⟩
    intro k
    by_cases hk : k = i
    · subst hk
      by_cases hki : k < s.registers.length
      · rw [getRegister_modify_self _ _ hki]
        exact lookup_addItemToCart_ne it hne
      · rw [modifyIdx_of_ge _ (Nat.le_of_not_lt hki)]
    · rw [getRegister_modify_ne _ _ hk]
  | none =>
    cases hs : (s.getLeastUtilizedRegister).1 with
    | ok j =>
      have hjlen := (getLeastUtilized_ok s j hs).2
      rw [assignItem_unmapped_ok it h hs]
      refine ⟨dictLookup_dictSet_ne _ _ hne, ?_⟩
      intro k
      by_cases hk : k = j
      · subst hk
        rw [getRegister_modify_self _ _ hjlen]
        exact lookup_addItemToCart_ne it hne
      · rw [getRegister_modify_ne _ _ hk]
    | error e =>
      rw [assignItem_unmapped_err it h hs, scan_err_state_any s hs]
      refine ⟨rfl, ?_⟩
      intro k
      by_cases hk : k < s.registers.length
      · rw [getRegister_lockRegisters s k hk]
        rfl
      · have hge := Nat.le_of_not_lt hk
        rw [getRegister_ge s hge, getRegister_ge s.lockRegisters (by
          show (s.registers.map Register.lockRegister).length ≤ k
          rw [List.length_map]
          exact hge)]

theorem checkout_other_frame (s : Store) {c c2 : Nat} (hne : c ≠ c2) :
    dictLookup ((s.checkoutCustomer c2).2).register_map c = dictLookup s.register_map c ∧
    ∀ k, dictLookup (((s.checkoutCustomer c2).2).getRegister k).customer_cart_map c
          = dictLookup (s.getRegister k).customer_cart_map c := by
  cases h : dictLookup s.register_map c2 with
  | none =>
    rw [checkoutCustomer_unmapped h]
    exact ⟨rfl, fun k => rfl⟩
  | some i =>
    cases hm : dictMem (s.getRegister i).customer_cart_map c2 with
    | true =>
      have hilen : i < s.registers.length := by
        by_contra hge
        rw [getRegister_ge s (Nat.le_of_not_lt hge)] at hm
        simp [Register.init, dictMem, dictLookup] at hm
      rw [checkoutCustomer_mapped_mem h hm]
      refine ⟨dictLookup_dictErase_ne _ hne, ?_⟩
      intro k
      by_cases hk : k = i
      · subst hk
        rw [getRegister_modify_self _ _ hilen]
        exact dictLookup_dictErase_ne _ hne
      · rw [getRegister_modify_ne _ _ hk]
    | false =>
      rw [checkoutCustomer_mapped_not_mem h hm]
      refine ⟨rfl, ?_⟩
      intro k
      by_cases hk : k = i
      · subst hk
        by_cases hki : k < s.registers.length
        · rw [getRegister_modify_self _ _ hki]
          rfl
        · rw [modifyIdx_of_ge _ (Nat.le_of_not_lt hki)]
      · rw [getRegister_modify_ne _ _ hk]

theorem applyOps_cons (s : Store) (op : Op) (ops : List Op) :
    s.applyOps (op :: ops) = (s.applyOp op).applyOps ops := rfl

theorem applyOp_assign (s : Store) (c it : Nat) :
    s.applyOp (Op.assign c it) = (s.assignItem c it).2 := rfl

theorem applyOp_checkout (s : Store) (c : Nat) :
    s.applyOp (Op.checkout c) = (s.checkoutCustomer c).2 := rfl

theorem sticky_helper (ops : List Op) :
    ∀ (s : Store) (c j : Nat) (cart : Cart),
      (∀ op ∈ ops, op ≠ Op.checkout c) →
      j < s.registers.length →
      dictLookup s.register_map c = some j →
      dictLookup (s.getRegister j).customer_cart_map c = some cart →
      (∀ k, k ≠ j → dictLookup (s.getRegister k).customer_cart_map c = none) →
      (dictLookup (s.applyOps ops).register_map c = some j ∧
       dictLookup ((s.applyOps ops).getRegister j).customer_cart_map c
         = some { cart with items := cart.items ++ itemsFor c ops } ∧
       (∀ k, k ≠ j →
         dictLookup ((s.applyOps ops).getRegister k).customer_cart_map c = none)) := by
  induction ops with
  | nil =>
    intro s c j cart hops hj hmap hcart habs
    refine ⟨hmap, ?_, habs⟩
    show dictLookup (s.getRegister j).customer_cart_map c = _
    rw [hcart]
    simp [itemsFor]
  | cons op rest ih =>
    intro s c j cart hops hj hmap hcart habs
    have hop := hops op (List.mem_cons_self _ _)
    have hrest : ∀ op2 ∈ rest, op2 ≠ Op.checkout c :=
      fun op2 hm2 => hops op2 (List.mem_cons_of_mem _ hm2)
    rw [applyOps_cons]
    cases op with
    | assign c2 it =>
      rw [applyOp_assign]
      by_cases hc2 : c2 = c
      · subst hc2
        have hstep1 : dictLookup ((s.assignItem c2 it).2).register_map c2 = some j := by
          rw [assignItem_mapped it hmap]
          exact hmap
        have hstep2 : dictLookup (((s.assignItem c2 it).2).getRegister j).customer_cart_map c2
            = some (cart.addItem it) := by
          rw [assignItem_mapped it hmap, getRegister_modify_self _ _ hj]
          exact lookup_addItemToCart_some it hcart
        have hstep3 : ∀ k, k ≠ j →
            dictLookup (((s.assignItem c2 it).2).getRegister k).customer_cart_map c2 = none := by
          intro k hk
          rw [assignItem_mapped it hmap, getRegister_modify_ne _ _ hk]
          exact habs k hk
        have hlen : j < ((s.assignItem c2 it).2).registers.length := by
          rw [length_assignItem]
          exact hj
        have hres := ih ((s.assignItem c2 it).2) c2 j (cart.addItem it) hrest hlen hstep1 hstep2 hstep3
        rw [show itemsFor c2 (Op.assign c2 it :: rest) = it :: itemsFor c2 rest by
          simp [itemsFor]]
        refine ⟨hres.1, ?_, hres.2.2⟩
        rw [hres.2.1]
        simp [Cart.addItem]
      · have hf := assign_other_frame s it (fun he => hc2 he.symm)
        have hlen : j < ((s.assignItem c2 it).2).registers.length := by
          rw [length_assignItem]
          exact hj
        rw [show itemsFor c (Op.assign c2 it :: rest) = itemsFor c rest by
          simp [itemsFor, hc2]]
        refine ih _ c j cart hrest hlen ?_ ?_ ?_
        · rw [hf.1]
          exact hmap
        · rw [hf.2 j]
          exact hcart
        · intro k hk
          rw [hf.2 k]
          exact habs k hk
    | checkout c2 =>
      rw [applyOp_checkout]
      have hc2 : c2 ≠ c := fun he => hop (by rw [he])
      have hf := checkout_other_frame s (fun he => hc2 he.symm)
      have hlen : j < ((s.checkoutCustomer c2).2).registers.length := by
        rw [length_checkoutCustomer]
        exact hj
      rw [show itemsFor c (Op.checkout c2 :: rest) = itemsFor c rest from rfl]
      refine ih _ c j cart hrest hlen ?_ ?_ ?_
      · rw [hf.1]
        exact hmap
      · rw [hf.2 j]
        exact hcart
      · intro k hk
        rw [hf.2 k]
        exact habs k hk

/-- C5: sticky routing — for a customer `c` not yet routed, a successful first
`assignItem` picks its register through `getLeastUtilizedRegister` and records
the mapping; after any further operations that contain no `checkoutCustomer c`,
all of `c`'s items (in order) sit in that one register's cart for `c`, the
routing entry still points there, and no other register holds a cart for
`c`. -/
theorem C5_sticky_routing (s : Store) (hr : Reachable s) (c it0 : Nat) (ops : List Op)
    (hops : ∀ op ∈ ops, op ≠ Op.checkout c)
    (hnew : dictLookup s.register_map c = none)
    (hok : (s.assignItem c it0).1 = Except.ok ()) :
    ∃ j, (s.getLeastUtilizedRegister).1 = Except.ok j ∧
      dictLookup ((s.assignItem c it0).2).register_map c = some j ∧
      dictLookup ((((s.assignItem c it0).2).applyOps ops)).register_map c = some j ∧
      dictLookup (((((s.assignItem c it0).2).applyOps ops)).getRegister j).customer_cart_map c
        = some (Cart.mk c (it0 :: itemsFor c ops)) ∧
      ∀ k, k ≠ j →
        dictLookup (((((s.assignItem c it0).2).applyOps ops)).getRegister k).customer_cart_map c
          = none := by
  have hinv := inv_reachable hr
  cases hs : (s.getLeastUtilizedRegister).1 with
  | error e =>
    rw [assignItem_unmapped_err it0 hnew hs] at hok
    simp at hok
  | ok j =>
    have hjlen := (getLeastUtilized_ok s j hs).2
    have h1 : dictLookup ((s.assignItem c it0).2).register_map c = some j := by
      rw [assignItem_unmapped_ok it0 hnew hs]
      exact dictLookup_dictSet_self _ _ _
    have hcartnone := unmapped_not_in_register hinv hnew j hjlen
    have h2 : dictLookup (((s.assignItem c it0).2).getRegister j).customer_cart_map c
        = some (Cart.mk c [it0]) := by
      rw [assignItem_unmapped_ok it0 hnew hs, getRegister_modify_self _ _ hjlen]
      exact lookup_addItemToCart_none it0 hcartnone
    have h3 : ∀ k, k ≠ j →
        dictLookup (((s.assignItem c it0).2).getRegister k).customer_cart_map c = none := by
      intro k hk
      rw [assignItem_unmapped_ok it0 hnew hs, getRegister_modify_ne _ _ hk]
      by_cases hklen : k < s.registers.length
      · exact unmapped_not_in_register hinv hnew k hklen
      · rw [getRegister_ge s (Nat.le_of_not_lt hklen)]
        rfl
    have hlen1 : j < ((s.assignItem c it0).2).registers.length := by
      rw [length_assignItem]
      exact hjlen
    have hres := sticky_helper ops ((s.assignItem c it0).2) c j (Cart.mk c [it0])
      hops hlen1 h1 h2 h3
    refine ⟨j, rfl, h1, hres.1, ?_, hres.2.2⟩
    rw [hres.2.1]
    simp

/-- Witness for C5: customer 0's first item lands on a register; a later item
for customer 1 and two later items for customer 0 leave customer 0 on the same
register with all three of their items. -/
theorem C5_sticky_routing_witness :
    ∃ j, ((Store.init 2).getLeastUtilizedRegister).1 = Except.ok j ∧
      dictLookup (((Store.init 2).assignItem 0 5).2).register_map 0 = some j ∧
      dictLookup ((((Store.init 2).assignItem 0 5).2).applyOps
        [Op.assign 1 7, Op.assign 0 8, Op.assign 0 9]).register_map 0 = some j ∧
      dictLookup (((((Store.init 2).assignItem 0 5).2).applyOps
        [Op.assign 1 7, Op.assign 0 8, Op.assign 0 9]).getRegister j).customer_cart_map 0
        = some (Cart.mk 0 (5 :: itemsFor 0 [Op.assign 1 7, Op.assign 0 8, Op.assign 0 9])) ∧
      ∀ k, k ≠ j →
        dictLookup (((((Store.init 2).assignItem 0 5).2).applyOps
          [Op.assign 1 7, Op.assign 0 8, Op.assign 0 9]).getRegister k).customer_cart_map 0
          = none :=
  C5_sticky_routing (Store.init 2) (Reachable.init 2) 0 5
    [Op.assign 1 7, Op.assign 0 8, Op.assign 0 9]
    (by decide) (by decide) (by decide)

/-! ### Claims C1, C6, C9: the least-utilized scan -/

/-- C1 (amended: the no-empty-register clause additionally requires the
minimal total to be below `sys.maxsize`; see the counterexample): for a store
with a non-empty pool, `getLeastUtilizedRegister` returns the first register
in pool order whose total is zero when an empty register exists; when no
register is empty it returns the register with the strictly smallest total,
ties broken by first position in pool order (a later register with an equal
count never replaces the candidate). -/
theorem C1_least_utilized_selection (s : Store) (i : Nat) (hi : i < s.registers.length) :
    (((s.getRegister i).getTotalItems = 0 ∧
      (∀ m, m < i → (s.getRegister m).getTotalItems ≠ 0)) →
      (s.getLeastUtilizedRegister).1 = Except.ok i) ∧
    (((∀ m, m < s.registers.length → (s.getRegister m).getTotalItems ≠ 0) ∧
      (s.getRegister i).getTotalItems < sysMaxsize ∧
      (∀ m, m < i →
        (s.getRegister i).getTotalItems < (s.getRegister m).getTotalItems) ∧
      (∀ m, m < s.registers.length →
        (s.getRegister i).getTotalItems ≤ (s.getRegister m).getTotalItems)) →
      (s.getLeastUtilizedRegister).1 = Except.ok i) := by
  constructor
  · rintro ⟨hz, hnz⟩
    rw [getLeastUtilized_eq_scan]
    rw [scanRegisters_first_zero s.registers 0 sysMaxsize none i hi hz hnz]
    simp
  · rintro ⟨hnz, hlt, hfirst, hmin⟩
    rw [getLeastUtilized_eq_scan]
    rw [scanRegisters_min s.registers i 0 sysMaxsize none hnz hi hlt hfirst hmin]
    simp

/-- A store whose totals per register are `[1, 0, 0]`. -/
def storeC1a : Store :=
  { registers := [
      { customer_cart_map := [(3, { customer_id := 3, items := [1] })],
        lock := 0, register_id := 0 },
      Register.init 1, Register.init 2],
    register_map := [(3, 0)] }

/-- A store whose totals per register are `[2, 1, 1]`. -/
def storeC1b : Store :=
  { registers := [
      { customer_cart_map := [(0, { customer_id := 0, items := [1, 2] })],
        lock := 0, register_id := 0 },
      { customer_cart_map := [(1, { customer_id := 1, items := [3] })],
        lock := 0, register_id := 1 },
      { customer_cart_map := [(2, { customer_id := 2, items := [4] })],
        lock := 0, register_id := 2 }],
    register_map := [(0, 0), (1, 1), (2, 2)] }

/-- Witness for C1: the first empty register (position 1) wins in `storeC1a`;
the unique minimum at position 1 wins the `[2, 1, 1]` tie in `storeC1b`. -/
theorem C1_least_utilized_selection_witness :
    (storeC1a.getLeastUtilizedRegister).1 = Except.ok 1 ∧
    (storeC1b.getLeastUtilizedRegister).1 = Except.ok 1 := by
  constructor
  · exact (C1_least_utilized_selection storeC1a 1 (by decide)).1 ⟨by decide, by decide⟩
  · exact (C1_least_utilized_selection storeC1b 1 (by decide)).2
      ⟨by decide, by decide, by decide, by decide⟩

/-- A register whose single cart holds `sys.maxsize` items. -/
def registerMaxed : Register :=
  { customer_cart_map := [(0, { customer_id := 0, items := List.replicate sysMaxsize 0 })],
    lock := 0, register_id := 0 }

/-- A one-register store whose register holds `sys.maxsize` items. -/
def storeMaxed : Store := { registers := [registerMaxed], register_map := [(0, 0)] }

theorem registerMaxed_total : registerMaxed.getTotalItems = sysMaxsize := by
  rw [getTotalItems_eq]
  simp [registerMaxed, Cart.size]

theorem sysMaxsize_ne_zero : sysMaxsize ≠ 0 := by decide

theorem storeMaxed_scan :
    scanRegisters storeMaxed.registers 0 sysMaxsize none = ScanOutcome.done none := by
  show scanRegisters [registerMaxed] 0 sysMaxsize none = ScanOutcome.done none
  simp only [scanRegisters, registerMaxed_total]
  rw [if_neg sysMaxsize_ne_zero, if_neg (lt_irrefl sysMaxsize)]

/-- Counterexample to C1 as stated: `storeMaxed` has a non-empty pool, no
register has zero items, and position 0 holds the strictly smallest total
(vacuously smaller than every earlier register's, and minimal over the whole
pool), so the claim requires the scan to return register 0 — but the code
raises "Invalid register state", because a total of `sys.maxsize` is never
strictly below the `lowest_items` sentinel, which starts at `sys.maxsize`. -/
theorem C1_least_utilized_selection_counterexample :
    storeMaxed.registers.length = 1 ∧
    (∀ m, m < storeMaxed.registers.length →
      (storeMaxed.getRegister m).getTotalItems ≠ 0) ∧
    (∀ m, m < 0 →
      (storeMaxed.getRegister 0).getTotalItems
        < (storeMaxed.getRegister m).getTotalItems) ∧
    (∀ m, m < storeMaxed.registers.length →
      (storeMaxed.getRegister 0).getTotalItems
        ≤ (storeMaxed.getRegister m).getTotalItems) ∧
    (storeMaxed.getLeastUtilizedRegister).1
      = Except.error StoreError.invalidRegisterState := by
  have hr0 : storeMaxed.getRegister 0 = registerMaxed := rfl
  have hlen : storeMaxed.registers.length = 1 := rfl
  refine ⟨rfl, ?_, ?_, ?_, ?_⟩
  · intro m hm
    rw [hlen] at hm
    have hm0 : m = 0 := by omega
    subst hm0
    rw [hr0, registerMaxed_total]
    exact sysMaxsize_ne_zero
  · intro m hm
    exact absurd hm (Nat.not_lt_zero m)
  · intro m hm
    rw [hlen] at hm
    have hm0 : m = 0 := by omega
    subst hm0
    exact Nat.le_refl _
  · rw [getLeastUtilized_eq_scan, storeMaxed_scan]

/-- C6 (amended: additionally some register's total must be below
`sys.maxsize`; see the counterexample): for a store with a non-empty register
pool the internal-invariant error branch of `getLeastUtilizedRegister` is
unreachable — the scan selects and returns some register. -/
theorem C6_scan_always_selects (s : Store)
    (hne : s.registers ≠ [])
    (hlt : ∃ r ∈ s.registers, r.getTotalItems < sysMaxsize) :
    ∃ i, (s.getLeastUtilizedRegister).1 = Except.ok i := by
  rw [getLeastUtilized_eq_scan]
  cases hscan : scanRegisters s.registers 0 sysMaxsize none with
  | earlyExit j => exact ⟨j, rfl⟩
  | done cand =>
    cases cand with
    | some j => exact ⟨j, rfl⟩
    | none =>
      exact absurd hscan (scanRegisters_exists_lt s.registers 0 sysMaxsize none hlt)

/-- Witness for C6 at a concrete one-register store. -/
theorem C6_scan_always_selects_witness :
    ∃ i, ((Store.init 1).getLeastUtilizedRegister).1 = Except.ok i :=
  C6_scan_always_selects (Store.init 1) (by decide) (by decide)

/-- A second register whose single cart holds `sys.maxsize` items. -/
def registerMaxed2 : Register :=
  { customer_cart_map := [(1, { customer_id := 1, items := List.replicate sysMaxsize 5 })],
    lock := 0, register_id := 1 }

/-- A two-register store in which every register holds `sys.maxsize` items. -/
def storeMaxedPair : Store :=
  { registers := [registerMaxed, registerMaxed2], register_map := [(0, 0), (1, 1)] }

theorem registerMaxed2_total : registerMaxed2.getTotalItems = sysMaxsize := by
  rw [getTotalItems_eq]
  simp [registerMaxed2, Cart.size]

/-- Counterexample to C6 as stated: `storeMaxedPair` has a non-empty pool,
yet the scan completes without selecting any register and the code raises
"Invalid register state", because every total equals the `sys.maxsize`
sentinel and the strict `lowest_items > total_items` comparison never
fires. -/
theorem C6_scan_always_selects_counterexample :
    storeMaxedPair.registers ≠ [] ∧
    (storeMaxedPair.getLeastUtilizedRegister).1
      = Except.error StoreError.invalidRegisterState := by
  constructor
  · intro h
    cases h
  · have hscan : scanRegisters storeMaxedPair.registers 0 sysMaxsize none
        = ScanOutcome.done none := by
      show scanRegisters [registerMaxed, registerMaxed2] 0 sysMaxsize none
        = ScanOutcome.done none
      simp only [scanRegisters, registerMaxed_total, registerMaxed2_total]
      rw [if_neg sysMaxsize_ne_zero, if_neg (lt_irrefl sysMaxsize),
        if_neg sysMaxsize_ne_zero, if_neg (lt_irrefl sysMaxsize)]
    rw [getLeastUtilized_eq_scan, hscan]

/-- C9: a store constructed with zero registers raises the same
"Invalid register state" invariant-violation error from
`getLeastUtilizedRegister` — and therefore from `assignItem` for any customer
absent from `register_map` — and the store state is unmodified. -/
theorem C9_zero_registers (c it : Nat) :
    (Store.init 0).getLeastUtilizedRegister
      = (Except.error StoreError.invalidRegisterState, Store.init 0) ∧
    (Store.init 0).assignItem c it
      = (Except.error StoreError.invalidRegisterState, Store.init 0) := by
  constructor
  · rfl
  · rfl

/-! ### Claim C7: item conservation -/

/-- Sum of `getTotalItems()` over all registers of the store. -/
def sumTotalItems (s : Store) : Nat :=
  (s.registers.map Register.getTotalItems).sum

/-- Size of customer `c`'s pending cart (0 when the customer has none): the
number of items a successful `checkoutCustomer c` removes. -/
def cartSizeOf (s : Store) (c : Nat) : Nat :=
  match dictLookup s.register_map c with
  | some i =>
      match dictLookup (s.getRegister i).customer_cart_map c with
      | some cart => cart.size
      | none => 0
  | none => 0

/-- Run a trace, tallying the number of successful `assignItem` calls and the
number of items removed by successful `checkoutCustomer` calls. -/
def runTally : Store → List Op → Store × Nat × Nat
  | s, [] => (s, 0, 0)
  | s, Op.assign c it :: rest =>
      let out := s.assignItem c it
      let tr := runTally out.2 rest
      match out.1 with
      | Except.ok _ => (tr.1, tr.2.1 + 1, tr.2.2)
      | Except.error _ => tr
  | s, Op.checkout c :: rest =>
      let out := s.checkoutCustomer c
      let tr := runTally out.2 rest
      match out.1 with
      | Except.ok _ => (tr.1, tr.2.1, tr.2.2 + cartSizeOf s c)
      | Except.error _ => tr

theorem runTally_assign (s : Store) (c it : Nat) (rest : List Op) :
    runTally s (Op.assign c it :: rest)
      = (match (s.assignItem c it).1 with
         | Except.ok _ =>
             ((runTally (s.assignItem c it).2 rest).1,
              (runTally (s.assignItem c it).2 rest).2.1 + 1,
              (runTally (s.assignItem c it).2 rest).2.2)
         | Except.error _ => runTally (s.assignItem c it).2 rest) := rfl

theorem runTally_checkout (s : Store) (c : Nat) (rest : List Op) :
    runTally s (Op.checkout c :: rest)
      = (match (s.checkoutCustomer c).1 with
         | Except.ok _ =>
             ((runTally (s.checkoutCustomer c).2 rest).1,
              (runTally (s.checkoutCustomer c).2 rest).2.1,
              (runTally (s.checkoutCustomer c).2 rest).2.2 + cartSizeOf s c)
         | Except.error _ => runTally (s.checkoutCustomer c).2 rest) := rfl

theorem sumTotal_lockRegisters (s : Store) :
    sumTotalItems s.lockRegisters = sumTotalItems s := by
  unfold sumTotalItems Store.lockRegisters
  dsimp only
  rw [List.map_map]
  have hcomp : Register.getTotalItems ∘ Register.lockRegister = Register.getTotalItems := by
    funext r
    rfl
  rw [hcomp]

theorem sumTotal_assign_ok (s : Store) (c it : Nat) (hinv : s.Inv)
    (hok : (s.assignItem c it).1 = Except.ok ()) :
    sumTotalItems ((s.assignItem c it).2) = sumTotalItems s + 1 := by
  cases h : dictLookup s.register_map c with
  | some i =>
    have hilen := (mapped_register_has_cart hinv h).1
    rw [assignItem_mapped it h]
    have hsum := sum_map_modifyIdx Register.getTotalItems
      (fun register => register.addItemToCart c it) (Register.init 0) hilen
    have hba : Register.getTotalItems
        ((fun register => register.addItemToCart c it) (s.registers.getD i (Register.init 0)))
        = Register.getTotalItems
            ((s.registers.getD i (Register.init 0)).addItemToCart c it) := rfl
    rw [hba, getTotalItems_addItemToCart] at hsum
    show ((modifyIdx s.registers i
      (fun register => register.addItemToCart c it)).map Register.getTotalItems).sum
      = (s.registers.map Register.getTotalItems).sum + 1
    omega
  | none =>
    cases hs : (s.getLeastUtilizedRegister).1 with
    | error e =>
      rw [assignItem_unmapped_err it h hs] at hok
      simp at hok
    | ok j =>
      have hjlen := (getLeastUtilized_ok s j hs).2
      rw [assignItem_unmapped_ok it h hs]
      have hsum := sum_map_modifyIdx Register.getTotalItems
        (fun register => register.addItemToCart c it) (Register.init 0) hjlen
      have hba : Register.getTotalItems
          ((fun register => register.addItemToCart c it) (s.registers.getD j (Register.init 0)))
          = Register.getTotalItems
              ((s.registers.getD j (Register.init 0)).addItemToCart c it) := rfl
      rw [hba, getTotalItems_addItemToCart] at hsum
      show ((modifyIdx s.registers j
        (fun register => register.addItemToCart c it)).map Register.getTotalItems).sum
        = (s.registers.map Register.getTotalItems).sum + 1
      omega

theorem sumTotal_assign_err (s : Store) (c it : Nat) {e : StoreError}
    (hs : (s.assignItem c it).1 = Except.error e) :
    sumTotalItems ((s.assignItem c it).2) = sumTotalItems s := by
  cases h : dictLookup s.register_map c with
  | some i =>
    rw [assignItem_mapped it h] at hs
    simp at hs
  | none =>
    cases hs2 : (s.getLeastUtilizedRegister).1 with
    | ok j =>
      rw [assignItem_unmapped_ok it h hs2] at hs
      simp at hs
    | error e2 =>
      rw [assignItem_unmapped_err it h hs2, scan_err_state_any s hs2]
      exact sumTotal_lockRegisters s

theorem sumTotal_checkout_ok (s : Store) (c : Nat) (hinv : s.Inv)
    (hok : (s.checkoutCustomer c).1 = Except.ok ()) :
    sumTotalItems ((s.checkoutCustomer c).2) + cartSizeOf s c = sumTotalItems s := by
  obtain ⟨i, h, hm⟩ := checkout_ok_cases hok
  have hilen := (mapped_register_has_cart hinv h).1
  obtain ⟨cart, hcart⟩ := (mapped_register_has_cart hinv h).2
  have hsize : cartSizeOf s c = cart.size := by
    unfold cartSizeOf
    rw [h]
    dsimp only
    rw [hcart]
  rw [checkoutCustomer_mapped_mem h hm, hsize]
  have hsum := sum_map_modifyIdx Register.getTotalItems
    (fun _ => { s.getRegister i with
        customer_cart_map := dictErase (s.getRegister i).customer_cart_map c })
    (Register.init 0) hilen
  have hba : Register.getTotalItems
      ((fun _ => { s.getRegister i with
          customer_cart_map := dictErase (s.getRegister i).customer_cart_map c })
        (s.registers.getD i (Register.init 0)))
      = Register.getTotalItems { s.getRegister i with
          customer_cart_map := dictErase (s.getRegister i).customer_cart_map c } := rfl
  rw [hba] at hsum
  have herase : Register.getTotalItems { s.getRegister i with
      customer_cart_map := dictErase (s.getRegister i).customer_cart_map c } + cart.size
      = Register.getTotalItems (s.getRegister i) := by
    rw [getTotalItems_eq, getTotalItems_eq]
    exact sum_sizes_dictErase hcart
  have hgd : Register.getTotalItems (s.registers.getD i (Register.init 0))
      = Register.getTotalItems (s.getRegister i) := rfl
  rw [hgd] at hsum
  show ((modifyIdx s.registers i
    (fun _ => { s.getRegister i with
        customer_cart_map := dictErase (s.getRegister i).customer_cart_map c })).map
      Register.getTotalItems).sum + cart.size
    = (s.registers.map Register.getTotalItems).sum
  omega

theorem sumTotal_checkout_err (s : Store) (c : Nat) {e : StoreError}
    (hs : (s.checkoutCustomer c).1 = Except.error e) :
    sumTotalItems ((s.checkoutCustomer c).2) = sumTotalItems s := by
  cases h : dictLookup s.register_map c with
  | none =>
    rw [checkoutCustomer_unmapped h]
  | some i =>
    cases hm : dictMem (s.getRegister i).customer_cart_map c with
    | true =>
      rw [checkoutCustomer_mapped_mem h hm] at hs
      simp at hs
    | false =>
      rw [checkoutCustomer_mapped_not_mem h hm]
      by_cases hilen : i < s.registers.length
      · have hsum := sum_map_modifyIdx Register.getTotalItems
          (fun _ => (s.getRegister i).lockRegister) (Register.init 0) hilen
        have hba : Register.getTotalItems
            ((fun _ => (s.getRegister i).lockRegister) (s.registers.getD i (Register.init 0)))
            = Register.getTotalItems (s.registers.getD i (Register.init 0)) := rfl
        rw [hba] at hsum
        show ((modifyIdx s.registers i
          (fun _ => (s.getRegister i).lockRegister)).map Register.getTotalItems).sum
          = (s.registers.map Register.getTotalItems).sum
        omega
      · show ((modifyIdx s.registers i
          (fun _ => (s.getRegister i).lockRegister)).map Register.getTotalItems).sum
          = (s.registers.map Register.getTotalItems).sum
        rw [modifyIdx_of_ge _ (Nat.le_of_not_lt hilen)]

theorem runTally_sum (ops : List Op) :
    ∀ s : Store, s.Inv →
      sumTotalItems (runTally s ops).1 + (runTally s ops).2.2
        = (runTally s ops).2.1 + sumTotalItems s := by
  induction ops with
  | nil =>
    intro s _
    show sumTotalItems s + 0 = 0 + sumTotalItems s
    omega
  | cons op rest ih =>
    intro s hinv
    cases op with
    | assign c it =>
      rw [runTally_assign]
      have hih := ih ((s.assignItem c it).2) (inv_assignItem s c it hinv)
      cases hres : (s.assignItem c it).1 with
      | ok u =>
        cases u
        have hsum := sumTotal_assign_ok s c it hinv hres
        dsimp only
        omega
      | error e =>
        have hsum := sumTotal_assign_err s c it hres
        dsimp only
        omega
    | checkout c =>
      rw [runTally_checkout]
      have hih := ih ((s.checkoutCustomer c).2) (inv_checkoutCustomer s c hinv)
      cases hres : (s.checkoutCustomer c).1 with
      | ok u =>
        cases u
        have hsum := sumTotal_checkout_ok s c hinv hres
        dsimp only
        omega
      | error e =>
        have hsum := sumTotal_checkout_err s c hres
        dsimp only
        omega

theorem sumTotal_init (n : Nat) : sumTotalItems (Store.init n) = 0 := by
  unfold sumTotalItems Store.init
  dsimp only
  rw [List.map_map]
  have hcomp : Register.getTotalItems ∘ Register.init = fun _ => 0 := by
    funext m
    rfl
  rw [hcomp]
  simp

/-- C7: for every operation sequence executed from a fresh store, the sum
over all registers of `getTotalItems()` equals the number of successful
`assignItem` calls minus the items removed by successful `checkoutCustomer`
calls (each successful checkout removes exactly the size of that customer's
cart at checkout time, which is what `runTally` tallies via `cartSizeOf`). -/
theorem C7_item_conservation (n : Nat) (ops : List Op) :
    (runTally (Store.init n) ops).2.2 ≤ (runTally (Store.init n) ops).2.1 ∧
    sumTotalItems (runTally (Store.init n) ops).1
      = (runTally (Store.init n) ops).2.1 - (runTally (Store.init n) ops).2.2 := by
  have h := runTally_sum ops (Store.init n) (inv_init n)
  rw [sumTotal_init] at h
  omega

/-! ### Claim C8: register state representation -/

theorem length_getRegisterState (r : Register) :
    r.getRegisterState.length = r.getTotalItems := by
  rw [getRegisterState_eq, getTotalItems_eq, List.length_flatten, List.map_map]
  have hcomp : (List.length ∘ fun p : Nat × Cart =>
      List.replicate p.2.size p.2.customer_id) = fun p : Nat × Cart => p.2.size := by
    funext p
    simp
  rw [hcomp]

theorem count_state_list (c : Nat) :
    ∀ m : List (Nat × Cart),
      (dictKeys m).Nodup →
      (∀ q ∈ m, q.2.customer_id = q.1) →
      ((m.map (fun p => List.replicate p.2.size p.2.customer_id)).flatten).count c
        = (match dictLookup m c with
           | some cart => cart.size
           | none => 0) := by
  intro m
  induction m with
  | nil =>
    intro _ _
    simp [dictLookup]
  | cons p rest ih =>
    intro hn hid
    obtain ⟨k0, cart0⟩ := p
    have hid0 : cart0.customer_id = k0 := hid (k0, cart0) (List.mem_cons_self _ _)
    rw [dictKeys_cons] at hn
    have hn2 := List.nodup_cons.mp hn
    have hidr : ∀ q ∈ rest, q.2.customer_id = q.1 :=
      fun q hq => hid q (List.mem_cons_of_mem _ hq)
    simp only [List.map_cons, List.flatten_cons, List.count_append]
    rw [ih hn2.2 hidr]
    by_cases hc : k0 = c
    · subst hc
      rw [show dictLookup ((k0, cart0) :: rest) k0 = some cart0 by simp [dictLookup]]
      rw [(dictLookup_eq_none_iff rest k0).mpr hn2.1]
      dsimp only
      rw [hid0]
      simp [List.count_replicate]
    · rw [show dictLookup ((k0, cart0) :: rest) c = dictLookup rest c by
        simp [dictLookup, hc]]
      rw [hid0]
      simp [List.count_replicate, hc]

theorem mem_state_list {m : List (Nat × Cart)} {x : Nat}
    (hid : ∀ q ∈ m, q.2.customer_id = q.1)
    (hx : x ∈ (m.map (fun p => List.replicate p.2.size p.2.customer_id)).flatten) :
    dictMem m x = true := by
  obtain ⟨l, hl, hxl⟩ := List.mem_flatten.mp hx
  obtain ⟨q, hq, hql⟩ := List.mem_map.mp hl
  rw [← hql] at hxl
  have hxq : x = q.2.customer_id := List.eq_of_mem_replicate hxl
  rw [hxq, hid q hq]
  exact (dictMem_iff _ _).mpr (key_mem_dictKeys hq)

theorem fold_state_map_lock (regs : List Register) :
    ∀ acc : List (Nat × List Nat),
      (regs.map Register.lockRegister).foldl
          (fun state register =>
            dictSet state register.register_id register.getRegisterState) acc
        = regs.foldl
            (fun state register =>
              dictSet state register.register_id register.getRegisterState) acc := by
  induction regs with
  | nil => intro acc; rfl
  | cons r rest ih =>
    intro acc
    simp only [List.map_cons, List.foldl_cons]
    have h1 : (r.lockRegister).register_id = r.register_id := rfl
    have h2 : (r.lockRegister).getRegisterState = r.getRegisterState := rfl
    rw [h1, h2]
    exact ih _

theorem getAllRegisterState_fst (s : Store) :
    (s.getAllRegisterState).1
      = s.registers.foldl
          (fun state register =>
            dictSet state register.register_id register.getRegisterState) [] := by
  unfold Store.getAllRegisterState
  dsimp only
  exact fold_state_map_lock s.registers []

theorem fold_state_lookup_notin (regs : List Register) :
    ∀ (acc : List (Nat × List Nat)) (k : Nat),
      (∀ r ∈ regs, r.register_id ≠ k) →
      dictLookup (regs.foldl (fun state register =>
          dictSet state register.register_id register.getRegisterState) acc) k
        = dictLookup acc k := by
  induction regs with
  | nil => intro acc k _; rfl
  | cons r rest ih =>
    intro acc k hne
    simp only [List.foldl_cons]
    rw [ih _ k (fun r2 h2 => hne r2 (List.mem_cons_of_mem _ h2))]
    exact dictLookup_dictSet_ne _ _
      (fun he => hne r (List.mem_cons_self _ _) he.symm)

theorem fold_state_lookup (regs : List Register) :
    ∀ (acc : List (Nat × List Nat)) (off j : Nat),
      (∀ m, m < regs.length → (regs.getD m (Register.init 0)).register_id = off + m) →
      j < regs.length →
      dictLookup (regs.foldl (fun state register =>
          dictSet state register.register_id register.getRegisterState) acc) (off + j)
        = some ((regs.getD j (Register.init 0)).getRegisterState) := by
  induction regs with
  | nil => intro acc off j _ hj; cases hj
  | cons r rest ih =>
    intro acc off j hid hj
    simp only [List.foldl_cons]
    cases j with
    | zero =>
      have hr : r.register_id = off := by
        have := hid 0 (Nat.succ_pos _)
        rw [Nat.add_zero] at this
        exact this
      rw [fold_state_lookup_notin rest _ (off + 0) (fun r2 h2 => by
        obtain ⟨m2, hm2, he2⟩ := List.getElem_of_mem h2
        have hgd : rest.getD m2 (Register.init 0) = r2 := by
          rw [List.getD_eq_getElem _ _ hm2, he2]
        have := hid (m2 + 1) (Nat.succ_lt_succ hm2)
        rw [List.getD_cons_succ, hgd] at this
        rw [this]
        omega)]
      rw [Nat.add_zero, hr]
      exact dictLookup_dictSet_self _ _ _
    | succ n =>
      have harith : off + (n + 1) = (off + 1) + n := by omega
      rw [harith]
      exact ih _ (off + 1) n (fun m hm => by
        have := hid (m + 1) (Nat.succ_lt_succ hm)
        rw [List.getD_cons_succ] at this
        rw [this]
        omega) (Nat.lt_of_succ_lt_succ hj)

/-- C8: `getAllRegisterState()` maps each register's id to that register's
`getRegisterState()` sequence; that sequence has one entry per pending item
valued with the owning cart's `customer_id` — its length equals the
register's `getTotalItems()`, the number of occurrences of each customer id
equals the size of that customer's cart at the register, and every entry is
the id of a customer holding a cart there. -/
theorem C8_register_state (s : Store) (hr : Reachable s) (j : Nat)
    (hj : j < s.registers.length) :
    dictLookup (s.getAllRegisterState).1 j
      = some ((s.getRegister j).getRegisterState) ∧
    ((s.getRegister j).getRegisterState).length = (s.getRegister j).getTotalItems ∧
    (∀ c : Nat, ((s.getRegister j).getRegisterState).count c
      = (match dictLookup (s.getRegister j).customer_cart_map c with
         | some cart => cart.size
         | none => 0)) ∧
    (∀ x ∈ (s.getRegister j).getRegisterState,
      dictMem (s.getRegister j).customer_cart_map x = true) := by
  have hinv := inv_reachable hr
  obtain ⟨hnk, hmap, hreg⟩ := hinv
  have hidj : ∀ q ∈ (s.getRegister j).customer_cart_map, q.2.customer_id = q.1 :=
    fun q hq => ((hreg j hj).2.2 q hq).1
  refine ⟨?_, length_getRegisterState _, ?_, ?_⟩
  · rw [getAllRegisterState_fst]
    have hlook := fold_state_lookup s.registers [] 0 j (fun m hm => by
      rw [Nat.zero_add]
      exact (hreg m hm).2.1) hj
    rw [Nat.zero_add] at hlook
    exact hlook
  · intro c
    rw [getRegisterState_eq]
    exact count_state_list c (s.getRegister j).customer_cart_map (hreg j hj).1 hidj
  · intro x hx
    rw [getRegisterState_eq] at hx
    exact mem_state_list hidj hx

/-- Witness for C8 at a concrete reachable store and register. -/
theorem C8_register_state_witness :
    dictLookup (storeA.getAllRegisterState).1 0
      = some ((storeA.getRegister 0).getRegisterState) ∧
    ((storeA.getRegister 0).getRegisterState).length
      = (storeA.getRegister 0).getTotalItems ∧
    ((storeA.getRegister 0).getRegisterState).count 0
      = (match dictLookup (storeA.getRegister 0).customer_cart_map 0 with
         | some cart => cart.size
         | none => 0) := by
  have h := C8_register_state storeA reachable_storeA 0 (by decide)
  exact ⟨h.1, h.2.1, h.2.2.1 0⟩

/-! ### Claim C4: lock discipline on error paths -/

/-- C4 evidence (code bug): the source releases locks only on success paths.
`checkoutCart` on a register without the customer's cart raises after
`lockRegister()` and before `unlockRegister()`, leaving that register's lock
held (acquire count 1); likewise `getLeastUtilizedRegister` raises
"Invalid register state" while still holding every register's lock.  This
contradicts the specified discipline that every lock acquired at entry is
released on every exit path, including error paths. -/
theorem C4_lock_leak_on_error :
    ((Register.init 0).checkoutCart 5).1 = Except.error StoreError.cartNotFound ∧
    (Register.init 0).lock = 0 ∧
    (((Register.init 0).checkoutCart 5).2).lock = 1 ∧
    (∀ r ∈ storeMaxedPair.registers, r.lock = 0) ∧
    (storeMaxedPair.getLeastUtilizedRegister).1
      = Except.error StoreError.invalidRegisterState ∧
    (∀ r ∈ ((storeMaxedPair.getLeastUtilizedRegister).2).registers, r.lock = 1) := by
  have hscan : scanRegisters storeMaxedPair.registers 0 sysMaxsize none
      = ScanOutcome.done none := by
    show scanRegisters [registerMaxed, registerMaxed2] 0 sysMaxsize none
      = ScanOutcome.done none
    simp only [scanRegisters, registerMaxed_total, registerMaxed2_total]
    rw [if_neg sysMaxsize_ne_zero, if_neg (lt_irrefl sysMaxsize),
      if_neg sysMaxsize_ne_zero, if_neg (lt_irrefl sysMaxsize)]
  have herr : (storeMaxedPair.getLeastUtilizedRegister).1
      = Except.error StoreError.invalidRegisterState := by
    rw [getLeastUtilized_eq_scan, hscan]
  refine ⟨by decide, rfl, by decide, ?_, herr, ?_⟩
  · intro r hr
    have hr2 : r = registerMaxed ∨ r = registerMaxed2 := by
      rcases List.mem_cons.mp hr with h | h2
      · exact Or.inl h
      · rcases List.mem_cons.mp h2 with h | h3
        · exact Or.inr h
        · cases h3
    rcases hr2 with h | h <;> rw [h] <;> rfl
  · rw [scan_err_state_any storeMaxedPair herr]
    intro r hr
    have hmem : r ∈ (storeMaxedPair.registers).map Register.lockRegister := hr
    rcases List.mem_map.mp hmem with ⟨r0, hr0, he⟩
    have hr2 : r0 = registerMaxed ∨ r0 = registerMaxed2 := by
      rcases List.mem_cons.mp hr0 with h | h2
      · exact Or.inl h
      · rcases List.mem_cons.mp h2 with h | h3
        · exact Or.inr h
        · cases h3
    rw [← he]
    rcases hr2 with h | h <;> rw [h] <;> rfl
